import Mathlib

/-!
Shallow embedding of the TaskFlow todo application's ownership-scoped CRUD
core (Convex backend): the entity stores (`convex/db/*.ts`), the validation
helpers (`convex/helpers/validation.ts`), the shared constants
(`convex/helpers/constants.ts`) and the endpoint handlers
(`convex/endpoints/tasks.ts`, `convex/endpoints/dashboard.ts`,
`convex/endpoints/categories.ts`).

Modelling conventions:
* Convex document ids are `Nat`, drawn from a per-database counter `nextId`
  (Convex ids are opaque and unique; uniqueness is the `WFTasks` style
  well-formedness predicates below).
* User ids are `Nat` (the auth component is external; a handler receives the
  resolved caller as `Option Nat`, `none` meaning unauthenticated).
* The rate limiter is an external platform component; a rate-limited handler
  receives the outcome of `rateLimiter.limit` as a `Bool` argument `rlOk`.
* `Date.now()` is passed in as the `now : Int` argument (epoch milliseconds).
* JavaScript numbers on the code paths modelled here hold integer epoch
  timestamps, counts and order values, modelled as `Int`/`Nat` with exact
  arithmetic; `Math.round` on a nonnegative ratio is modelled exactly as
  floor(x + 1/2) via natural-number division.
* A thrown `Error` is `Except.error` with a constructor per throw site; a
  Convex mutation is transactional, so an error leaves the database unchanged
  (the handler simply returns no new state).
* `ctx.db.patch(id, fields)` updates every field listed; a field present with
  value `undefined` removes the field (Convex semantics), which is modelled
  for the one place the code does this (`categoryId: undefined`) by an
  `Option (Option Nat)` argument field.
* JavaScript truthiness guards such as `if (args.dueDate && ...)` are modelled
  faithfully: `0`, `""` and an absent value are falsy.
-/

namespace TaskFlow

-- ===========================================================================
-- Data model (convex/schema.ts records, as stored by the db layer)
-- ===========================================================================

/-- Task priority, from `convex/db/tasks.ts` (`TaskPriority`). -/
inductive TaskPriority where
  | low
  | medium
  | high
  | urgent
deriving DecidableEq, Repr

/-- Task status, from `convex/db/tasks.ts` (`TaskStatus`). -/
inductive TaskStatus where
  | todo
  | in_progress
  | completed
  | archived
deriving DecidableEq, Repr

/-- A stored task record (`tasks` table). -/
structure Task where
  id : Nat
  userId : Nat
  title : String
  description : Option String := none
  categoryId : Option Nat := none
  priority : TaskPriority
  status : TaskStatus
  dueDate : Option Int := none
  completedAt : Option Int := none
  tags : Option (List String) := none
  order : Int
  createdAt : Int
  updatedAt : Int
deriving DecidableEq, Repr

/-- A stored category record (`categories` table). -/
structure Category where
  id : Nat
  userId : Nat
  name : String
  color : String
  icon : Option String := none
  order : Int
  createdAt : Int
  updatedAt : Int
deriving DecidableEq, Repr

/-- A stored task comment record (`taskComments` table). -/
structure TaskComment where
  id : Nat
  taskId : Nat
  userId : Nat
  content : String
  createdAt : Int
  updatedAt : Int
deriving DecidableEq, Repr

/-- Activity action, from `convex/db/taskActivity.ts` (`TaskActivityAction`). -/
inductive TaskActivityAction where
  | created
  | updated
  | status_changed
  | completed
  | deleted
  | commented
deriving DecidableEq, Repr

/-- The `changes` payload an activity logger attaches (the source types it
`any`; these are the exact shapes the loggers in `taskActivity.ts` and the
task update endpoint construct). -/
inductive ActivityChanges where
  | statusChange (oldStatus newStatus : TaskStatus)
  | fieldChanges (title : Option (String × String))
      (status : Option (TaskStatus × TaskStatus))
      (priority : Option (TaskPriority × TaskPriority))
deriving DecidableEq, Repr

/-- The `metadata` payload an activity logger attaches. -/
inductive ActivityMeta where
  | deletedTitle (title : String)
  | commentRef (commentId : Nat)
deriving DecidableEq, Repr

/-- A stored activity record (`taskActivity` table). -/
structure TaskActivity where
  id : Nat
  taskId : Nat
  userId : Nat
  action : TaskActivityAction
  changes : Option ActivityChanges := none
  metadata : Option ActivityMeta := none
  createdAt : Int
deriving DecidableEq, Repr

/-- A stored user preferences record (`userPreferences` table); only the
fields the dashboard's per-table count can observe matter here. -/
structure UserPreferences where
  id : Nat
  userId : Nat
deriving DecidableEq, Repr

/-- The backing database: one list per table plus the id counter. -/
structure DB where
  tasks : List Task := []
  categories : List Category := []
  taskComments : List TaskComment := []
  taskActivity : List TaskActivity := []
  userPreferences : List UserPreferences := []
  nextId : Nat := 0
deriving DecidableEq, Repr

-- ===========================================================================
-- Constants (convex/helpers/constants.ts)
-- ===========================================================================

/-- The `PAGINATION_LIMIT` from `constants.ts`. -/
def PAGINATION_LIMIT : Nat := 50

/-- The `MAX_SEARCH_RESULTS` from `constants.ts`. -/
def MAX_SEARCH_RESULTS : Nat := 100

/-- The `MAX_CATEGORIES_PER_USER` from `constants.ts`. -/
def MAX_CATEGORIES_PER_USER : Nat := 50

/-- The `DEFAULT_PRIORITY` from `constants.ts`. -/
def DEFAULT_PRIORITY : TaskPriority := .medium

/-- The `DEFAULT_STATUS` from `constants.ts`. -/
def DEFAULT_STATUS : TaskStatus := .todo

/-- The `ONE_DAY_MS` (24 * 60 * 60 * 1000). -/
def ONE_DAY_MS : Int := 24 * 60 * 60 * 1000

-- ===========================================================================
-- Validation helpers (convex/helpers/validation.ts)
-- ===========================================================================

/-- The `isValidTaskTitle`: between 1 and 200 characters. -/
def isValidTaskTitle (title : String) : Bool :=
  title.length > 0 && title.length ≤ 200

/-- The `isValidTaskDescription`: at most 5000 characters. -/
def isValidTaskDescription (description : String) : Bool :=
  description.length ≤ 5000

/-- The `isValidDueDate`: at least `Date.now() - ONE_DAY_MS` ("allow dates from
yesterday onwards"); the source reads `Date.now()` itself, passed here as
`now`. -/
def isValidDueDate (now dueDate : Int) : Bool :=
  dueDate ≥ now - 24 * 60 * 60 * 1000

/-- The `isValidTags`: at most 10 tags, each between 1 and 30 characters. -/
def isValidTags (tags : List String) : Bool :=
  tags.length ≤ 10 && tags.all (fun tag => tag.length > 0 && tag.length ≤ 30)

/-- The `isValidCategoryName`: between 1 and 50 characters. -/
def isValidCategoryName (name : String) : Bool :=
  name.length > 0 && name.length ≤ 50

/-- A hex digit, upper or lower case (the `[0-9A-F]` class with the `i`
flag). -/
def isHexDigitChar (c : Char) : Bool :=
  c.isDigit || ('A' ≤ c && c ≤ 'F') || ('a' ≤ c && c ≤ 'f')

/-- The `isValidHexColor`: match against `/^#[0-9A-F]{6}$/i`. -/
def isValidHexColor (color : String) : Bool :=
  match color.toList with
  | '#' :: rest => rest.length == 6 && rest.all isHexDigitChar
  | _ => false

/-- The `isValidIconName`: 1 to 50 characters, all matching `/^[a-z-]+$/i`. -/
def isValidIconName (icon : String) : Bool :=
  icon.length > 0 && icon.length ≤ 50 &&
    icon.toList.all (fun c => c.isAlpha || c == '-')

/-- The `sanitizeInput`: trim leading and trailing whitespace
(`String.prototype.trim`, modelled directly on the character list so that
concrete runs reduce in the kernel). -/
def sanitizeInput (input : String) : String :=
  String.mk (((input.toList.dropWhile Char.isWhitespace).reverse.dropWhile
    Char.isWhitespace).reverse)

/-- The `isValidOrder`: a nonnegative integer (all our orders are `Int`). -/
def isValidOrder (order : Int) : Bool :=
  order ≥ 0

-- ===========================================================================
-- Entity store: tasks (convex/db/tasks.ts)
-- ===========================================================================

/-- The `CreateTaskArgs` from `convex/db/tasks.ts`. -/
structure CreateTaskArgs where
  userId : Nat
  title : String
  description : Option String := none
  categoryId : Option Nat := none
  priority : TaskPriority
  status : TaskStatus
  dueDate : Option Int := none
  tags : Option (List String) := none
  order : Int
deriving DecidableEq, Repr

/-- The `UpdateTaskArgs` from `convex/db/tasks.ts`. For every field, `none`
means the field is absent from the patch (left unchanged). `categoryId` is
doubly optional because the category-unlink path passes the field explicitly
as `undefined` (`some none` here), which removes it. -/
structure UpdateTaskArgs where
  title : Option String := none
  description : Option String := none
  categoryId : Option (Option Nat) := none
  priority : Option TaskPriority := none
  status : Option TaskStatus := none
  dueDate : Option Int := none
  completedAt : Option Int := none
  tags : Option (List String) := none
  order : Option Int := none
deriving DecidableEq, Repr

/-- The `ctx.db.patch` on the `tasks` table: rewrite the record with the given
id. -/
def patchTask (db : DB) (id : Nat) (f : Task → Task) : DB :=
  { db with tasks := db.tasks.map (fun t => if t.id = id then f t else t) }

/-- The `createTask`: insert with `createdAt`/`updatedAt` set to now; returns the
new id. -/
def createTask (db : DB) (args : CreateTaskArgs) (now : Int) : DB × Nat :=
  let t : Task :=
    { id := db.nextId, userId := args.userId, title := args.title
      description := args.description, categoryId := args.categoryId
      priority := args.priority, status := args.status
      dueDate := args.dueDate, completedAt := none, tags := args.tags
      order := args.order, createdAt := now, updatedAt := now }
  ({ db with tasks := db.tasks ++ [t], nextId := db.nextId + 1 }, db.nextId)

/-- The `getTaskById`: `ctx.db.get(id)`. -/
def getTaskById (db : DB) (id : Nat) : Option Task :=
  db.tasks.find? (fun t => t.id == id)

/-- The `getTasksByUser`: the `by_user` index, descending (most recent first;
insertion order models creation order). -/
def getTasksByUser (db : DB) (userId : Nat) : List Task :=
  (db.tasks.filter (fun t => t.userId == userId)).reverse

/-- The `getOverdueTasks`: the user's tasks with a truthy due date in the past
and status neither completed nor archived (`task.dueDate && task.dueDate <
now && ...`; a due date of `0` is falsy in JavaScript). -/
def getOverdueTasks (db : DB) (userId : Nat) (now : Int) : List Task :=
  (db.tasks.filter (fun t => t.userId == userId)).filter (fun task =>
    match task.dueDate with
    | some d =>
        d != 0 && d < now && task.status != .completed &&
          task.status != .archived
    | none => false)

/-- The `searchTasks`: the `search_title` full-text index. The text-match
relation itself lives inside the platform's search engine and is abstracted
as the `titleMatch` parameter; the code contributes the `userId` equality
filter, the optional `status` equality filter, and a plain `.collect()` with
no result cap. -/
def searchTasks (db : DB) (titleMatch : String → String → Bool) (userId : Nat)
    (searchQuery : String) (status : Option TaskStatus) : List Task :=
  db.tasks.filter (fun t =>
    titleMatch searchQuery t.title && t.userId == userId &&
      (match status with
       | some s => t.status == s
       | none => true))

/-- The `getTasksByCategory`: the `by_category` index (note: not scoped by
user). -/
def getTasksByCategory (db : DB) (categoryId : Nat) : List Task :=
  db.tasks.filter (fun t => t.categoryId == some categoryId)

/-- Apply an `UpdateTaskArgs` patch to one record (`updateTask`'s
`ctx.db.patch(id, { ...args, updatedAt: Date.now() })`). -/
def applyTaskPatch (t : Task) (args : UpdateTaskArgs) (now : Int) : Task :=
  { t with
    title := args.title.getD t.title
    description :=
      match args.description with
      | some d => some d
      | none => t.description
    categoryId := args.categoryId.getD t.categoryId
    priority := args.priority.getD t.priority
    status := args.status.getD t.status
    dueDate :=
      match args.dueDate with
      | some d => some d
      | none => t.dueDate
    completedAt :=
      match args.completedAt with
      | some c => some c
      | none => t.completedAt
    tags :=
      match args.tags with
      | some ts => some ts
      | none => t.tags
    order := args.order.getD t.order
    updatedAt := now }

/-- The `updateTask`. -/
def updateTask (db : DB) (id : Nat) (args : UpdateTaskArgs) (now : Int) : DB :=
  patchTask db id (fun t => applyTaskPatch t args now)

/-- The `completeTask`: patch status to completed, `completedAt` to now. -/
def completeTask (db : DB) (id : Nat) (now : Int) : DB :=
  patchTask db id (fun t =>
    { t with status := .completed, completedAt := some now, updatedAt := now })

/-- The `reopenTask`: patch status to todo, remove `completedAt`. -/
def reopenTask (db : DB) (id : Nat) (now : Int) : DB :=
  patchTask db id (fun t =>
    { t with status := .todo, completedAt := none, updatedAt := now })

/-- The `archiveTask`: patch status to archived (leaves `completedAt` alone). -/
def archiveTask (db : DB) (id : Nat) (now : Int) : DB :=
  patchTask db id (fun t => { t with status := .archived, updatedAt := now })

/-- One entry of the bulk reorder argument. -/
structure OrderUpdate where
  id : Nat
  order : Int
deriving DecidableEq, Repr

/-- The `updateTaskOrders`: patch each listed task's `order` in turn. -/
def updateTaskOrders (db : DB) (updates : List OrderUpdate) (now : Int) : DB :=
  updates.foldl
    (fun d upd =>
      patchTask d upd.id (fun t => { t with order := upd.order, updatedAt := now }))
    db

/-- The `deleteTask`: `ctx.db.delete(id)`. -/
def deleteTask (db : DB) (id : Nat) : DB :=
  { db with tasks := db.tasks.filter (fun t => t.id != id) }

/-- The `deleteTasks`: delete each id in turn. -/
def deleteTasks (db : DB) (ids : List Nat) : DB :=
  ids.foldl deleteTask db

-- ===========================================================================
-- Entity stores: taskComments / taskActivity (convex/db/taskComments.ts,
-- convex/db/taskActivity.ts)
-- ===========================================================================

/-- The `deleteCommentsByTask`: collect the `by_task` index and delete every
record. -/
def deleteCommentsByTask (db : DB) (taskId : Nat) : DB :=
  { db with taskComments := db.taskComments.filter (fun c => c.taskId != taskId) }

/-- The `createTaskActivity`: insert an activity record with `createdAt` now. -/
def createTaskActivity (db : DB) (taskId userId : Nat)
    (action : TaskActivityAction) (changes : Option ActivityChanges)
    (metadata : Option ActivityMeta) (now : Int) : DB × Nat :=
  let a : TaskActivity :=
    { id := db.nextId, taskId := taskId, userId := userId, action := action
      changes := changes, metadata := metadata, createdAt := now }
  ({ db with taskActivity := db.taskActivity ++ [a], nextId := db.nextId + 1 },
    db.nextId)

/-- The `logTaskCreated`. -/
def logTaskCreated (db : DB) (taskId userId : Nat)
    (metadata : Option ActivityMeta) (now : Int) : DB × Nat :=
  createTaskActivity db taskId userId .created none metadata now

/-- The `logTaskUpdated`. -/
def logTaskUpdated (db : DB) (taskId userId : Nat) (changes : ActivityChanges)
    (now : Int) : DB × Nat :=
  createTaskActivity db taskId userId .updated (some changes) none now

/-- The `logStatusChanged`. -/
def logStatusChanged (db : DB) (taskId userId : Nat)
    (oldStatus newStatus : TaskStatus) (now : Int) : DB × Nat :=
  createTaskActivity db taskId userId .status_changed
    (some (.statusChange oldStatus newStatus)) none now

/-- The `logTaskCompleted`. -/
def logTaskCompleted (db : DB) (taskId userId : Nat) (now : Int) : DB × Nat :=
  createTaskActivity db taskId userId .completed none none now

/-- The `logTaskDeleted`. -/
def logTaskDeleted (db : DB) (taskId userId : Nat)
    (metadata : Option ActivityMeta) (now : Int) : DB × Nat :=
  createTaskActivity db taskId userId .deleted none metadata now

/-- The `getActivityByUser`: the `by_user` index, descending. -/
def getActivityByUser (db : DB) (userId : Nat) : List TaskActivity :=
  (db.taskActivity.filter (fun a => a.userId == userId)).reverse

/-- The `deleteActivityByTask`: collect the `by_task` index and delete every
record. -/
def deleteActivityByTask (db : DB) (taskId : Nat) : DB :=
  { db with taskActivity := db.taskActivity.filter (fun a => a.taskId != taskId) }

-- ===========================================================================
-- Entity store: categories (convex/db/categories.ts)
-- ===========================================================================

/-- The `CreateCategoryArgs` from `convex/db/categories.ts`. -/
structure CreateCategoryArgs where
  userId : Nat
  name : String
  color : String
  icon : Option String := none
  order : Int
deriving DecidableEq, Repr

/-- The `createCategory`: insert with timestamps; returns the new id. -/
def createCategory (db : DB) (args : CreateCategoryArgs) (now : Int) :
    DB × Nat :=
  let c : Category :=
    { id := db.nextId, userId := args.userId, name := args.name
      color := args.color, icon := args.icon, order := args.order
      createdAt := now, updatedAt := now }
  ({ db with categories := db.categories ++ [c], nextId := db.nextId + 1 },
    db.nextId)

/-- The `getCategoryById`. -/
def getCategoryById (db : DB) (id : Nat) : Option Category :=
  db.categories.find? (fun c => c.id == id)

/-- The `getCategoriesByUser`: the `by_user_and_order` index (ascending by the
custom order; the claims below only use counts, so the sort itself is left
as insertion order). -/
def getCategoriesByUser (db : DB) (userId : Nat) : List Category :=
  db.categories.filter (fun c => c.userId == userId)

/-- The `Math.max(...)` over a nonempty list (the empty branch is unreachable at
every call site, which guards on nonemptiness first). -/
def listMax : List Int → Int
  | [] => 0
  | x :: xs => xs.foldl max x

/-- The `getNextCategoryOrder`: 0 with no categories, else max order + 1. -/
def getNextCategoryOrder (db : DB) (userId : Nat) : Int :=
  let categories := db.categories.filter (fun c => c.userId == userId)
  if categories.length == 0 then 0
  else listMax (categories.map (fun c => c.order)) + 1

/-- The `deleteCategory`. -/
def deleteCategory (db : DB) (id : Nat) : DB :=
  { db with categories := db.categories.filter (fun c => c.id != id) }

-- ===========================================================================
-- Endpoint layer: tasks (convex/endpoints/tasks.ts)
-- ===========================================================================

/-- Errors, one constructor per kind of `throw new Error(...)` in the
endpoint layer. -/
inductive Err where
  | notAuthenticated
  | rateLimited
  | notFound
  | notAuthorized
  | invalidInput (msg : String)
  | limitExceeded
deriving DecidableEq, Repr

/-- The guard `if (args.description && !isValidTaskDescription(...))`: an
absent or empty description is falsy and skips the check. -/
def descriptionRejected (description : Option String) : Bool :=
  match description with
  | some d => d != "" && !(isValidTaskDescription d)
  | none => false

/-- The guard `if (args.tags && !isValidTags(...))`: an array is always
truthy in JavaScript, including the empty array. -/
def tagsRejected (tags : Option (List String)) : Bool :=
  match tags with
  | some ts => !(isValidTags ts)
  | none => false

/-- The guard `if (args.dueDate && !isValidDueDate(...))`: an absent or zero
due date is falsy and skips the check. -/
def dueDateRejected (now : Int) (dueDate : Option Int) : Bool :=
  match dueDate with
  | some d => d != 0 && !(isValidDueDate now d)
  | none => false

/-- Arguments of the task `create` mutation. -/
structure TaskCreateArgs where
  title : String
  description : Option String := none
  categoryId : Option Nat := none
  priority : Option TaskPriority := none
  dueDate : Option Int := none
  tags : Option (List String) := none
deriving DecidableEq, Repr

/-- The task `create` mutation handler: authenticate, rate-limit, validate
(trimmed title, description, tags, due date), compute the next order (max
existing order + 1, or 0), insert, log a created activity. -/
def tasksCreate (db : DB) (auth : Option Nat) (rlOk : Bool)
    (args : TaskCreateArgs) (now : Int) : Except Err (DB × Nat) :=
  match auth with
  | none => .error .notAuthenticated
  | some u =>
    if !rlOk then .error .rateLimited
    else
      let title := sanitizeInput args.title
      if !(isValidTaskTitle title) then
        .error (.invalidInput "Title must be between 1 and 200 characters")
      else if descriptionRejected args.description then
        .error (.invalidInput "Description must be less than 5000 characters")
      else if tagsRejected args.tags then
        .error (.invalidInput "Invalid tags: maximum 10 tags, each up to 30 characters")
      else if dueDateRejected now args.dueDate then
        .error (.invalidInput "Invalid due date")
      else
        let existingTasks := getTasksByUser db u
        let nextOrder : Int :=
          if existingTasks.length > 0 then
            listMax (existingTasks.map (fun t => t.order)) + 1
          else 0
        let created := createTask db
          { userId := u, title := title, description := args.description
            categoryId := args.categoryId
            priority := args.priority.getD DEFAULT_PRIORITY
            status := DEFAULT_STATUS, dueDate := args.dueDate
            tags := args.tags, order := nextOrder } now
        let logged := logTaskCreated created.1 created.2 u none now
        .ok (logged.1, created.2)

/-- Arguments of the task `update` mutation. -/
structure TaskUpdateArgs where
  id : Nat
  title : Option String := none
  description : Option String := none
  categoryId : Option Nat := none
  priority : Option TaskPriority := none
  status : Option TaskStatus := none
  dueDate : Option Int := none
  tags : Option (List String) := none
deriving DecidableEq, Repr

/-- The task `update` mutation handler: authenticate, rate-limit, load and
check ownership, validate, patch the supplied fields (`completedAt` is never
part of the patch), then log either a status-changed activity (when the
status actually changed) or a generic updated activity (when the title was
supplied or the priority changed). -/
def tasksUpdate (db : DB) (auth : Option Nat) (rlOk : Bool)
    (args : TaskUpdateArgs) (now : Int) : Except Err (DB × Nat) :=
  match auth with
  | none => .error .notAuthenticated
  | some u =>
    if !rlOk then .error .rateLimited
    else match getTaskById db args.id with
    | none => .error .notFound
    | some task =>
      if task.userId != u then .error .notAuthorized
      else if (match args.title with
               | some t => !(isValidTaskTitle (sanitizeInput t))
               | none => false) then
        .error (.invalidInput "Title must be between 1 and 200 characters")
      else if descriptionRejected args.description then
        .error (.invalidInput "Description must be less than 5000 characters")
      else if tagsRejected args.tags then
        .error (.invalidInput "Invalid tags: maximum 10 tags, each up to 30 characters")
      else if dueDateRejected now args.dueDate then
        .error (.invalidInput "Invalid due date")
      else
        let titleChange : Option (String × String) :=
          args.title.map (fun newTitle => (task.title, newTitle))
        let priorityChange : Option (TaskPriority × TaskPriority) :=
          match args.priority with
          | some p => if p != task.priority then some (task.priority, p) else none
          | none => none
        let db1 := updateTask db args.id
          { title := args.title, description := args.description
            categoryId := args.categoryId.map some
            priority := args.priority, status := args.status
            dueDate := args.dueDate, completedAt := none
            tags := args.tags, order := none } now
        let db2 :=
          match args.status with
          | some s =>
            if s != task.status then
              (logStatusChanged db1 args.id u task.status s now).1
            else if titleChange.isSome || priorityChange.isSome then
              (logTaskUpdated db1 args.id u
                (.fieldChanges titleChange none priorityChange) now).1
            else db1
          | none =>
            if titleChange.isSome || priorityChange.isSome then
              (logTaskUpdated db1 args.id u
                (.fieldChanges titleChange none priorityChange) now).1
            else db1
        .ok (db2, args.id)

/-- The task `complete` mutation handler (no rate limit in the source):
authenticate, check ownership, `completeTask`, log a completed activity. -/
def tasksComplete (db : DB) (auth : Option Nat) (id : Nat) (now : Int) :
    Except Err (DB × Nat) :=
  match auth with
  | none => .error .notAuthenticated
  | some u =>
    match getTaskById db id with
    | none => .error .notFound
    | some task =>
      if task.userId != u then .error .notAuthorized
      else
        let db1 := completeTask db id now
        let logged := logTaskCompleted db1 id u now
        .ok (logged.1, id)

/-- The task `reopen` mutation handler: authenticate, check ownership,
`reopenTask`, log a status change completed → todo. -/
def tasksReopen (db : DB) (auth : Option Nat) (id : Nat) (now : Int) :
    Except Err (DB × Nat) :=
  match auth with
  | none => .error .notAuthenticated
  | some u =>
    match getTaskById db id with
    | none => .error .notFound
    | some task =>
      if task.userId != u then .error .notAuthorized
      else
        let db1 := reopenTask db id now
        let logged := logStatusChanged db1 id u .completed .todo now
        .ok (logged.1, id)

/-- The task `archive` mutation handler: authenticate, check ownership,
`archiveTask`, log a status change to archived. -/
def tasksArchive (db : DB) (auth : Option Nat) (id : Nat) (now : Int) :
    Except Err (DB × Nat) :=
  match auth with
  | none => .error .notAuthenticated
  | some u =>
    match getTaskById db id with
    | none => .error .notFound
    | some task =>
      if task.userId != u then .error .notAuthorized
      else
        let db1 := archiveTask db id now
        let logged := logStatusChanged db1 id u task.status .archived now
        .ok (logged.1, id)

/-- The task `remove` mutation handler: authenticate, rate-limit, check
ownership, log a deleted activity, then cascade: delete the task's comments,
delete its activity records (including the one just logged), delete the
task. -/
def tasksRemove (db : DB) (auth : Option Nat) (rlOk : Bool) (id : Nat)
    (now : Int) : Except Err (DB × Nat) :=
  match auth with
  | none => .error .notAuthenticated
  | some u =>
    if !rlOk then .error .rateLimited
    else match getTaskById db id with
    | none => .error .notFound
    | some task =>
      if task.userId != u then .error .notAuthorized
      else
        let logged := logTaskDeleted db id u (some (.deletedTitle task.title)) now
        let db2 := deleteCommentsByTask logged.1 id
        let db3 := deleteActivityByTask db2 id
        let db4 := deleteTask db3 id
        .ok (db4, id)

/-- The ownership-validation loop of the task `reorder` handler: every
referenced task must exist and belong to the caller before any write. -/
def checkTaskOwnership (db : DB) (u : Nat) : List OrderUpdate → Except Err Unit
  | [] => .ok ()
  | upd :: rest =>
    match getTaskById db upd.id with
    | none => .error .notFound
    | some task =>
      if task.userId != u then .error .notAuthorized
      else checkTaskOwnership db u rest

/-- The task `reorder` mutation handler: authenticate, validate ownership of
every referenced task, then apply all order updates. -/
def tasksReorder (db : DB) (auth : Option Nat) (updates : List OrderUpdate)
    (now : Int) : Except Err DB :=
  match auth with
  | none => .error .notAuthenticated
  | some u =>
    match checkTaskOwnership db u updates with
    | .error e => .error e
    | .ok _ => .ok (updateTaskOrders db updates now)

/-- The task `search` query handler: authenticate; an empty or all-blank
query returns `[]`; otherwise run the search-index query. -/
def tasksSearch (db : DB) (titleMatch : String → String → Bool)
    (auth : Option Nat) (searchQuery : String) (status : Option TaskStatus) :
    Except Err (List Task) :=
  match auth with
  | none => .error .notAuthenticated
  | some u =>
    if searchQuery == "" || (sanitizeInput searchQuery).length == 0 then .ok []
    else .ok (searchTasks db titleMatch u searchQuery status)

/-- The task `get` query handler: authenticate, load, check ownership. -/
def tasksGet (db : DB) (auth : Option Nat) (id : Nat) : Except Err Task :=
  match auth with
  | none => .error .notAuthenticated
  | some u =>
    match getTaskById db id with
    | none => .error .notFound
    | some task =>
      if task.userId != u then .error .notAuthorized
      else .ok task

-- ===========================================================================
-- Endpoint layer: dashboard (convex/endpoints/dashboard.ts)
-- ===========================================================================

/-- The `Math.round((c / a) * 100)` for natural counts with `a > 0`, computed
exactly: floor(100 * c / a + 1/2) = (200 * c + a) / (2 * a) in natural
division (on nonnegative values `Math.round` rounds half toward positive
infinity, i.e. floor(x + 1/2)). -/
def roundPct (c a : Nat) : Nat :=
  (200 * c + a) / (2 * a)

/-- The record returned by the dashboard `summary` query. -/
structure DashboardSummary where
  totalTasks : Nat
  todoTasks : Nat
  inProgressTasks : Nat
  completedTasks : Nat
  overdueTasks : Nat
  highPriorityTasks : Nat
  totalCategories : Nat
  completionRate : Nat
  recentActivityCount : Nat
  perTasks : Nat
  perTaskComments : Nat
  perTaskActivity : Nat
  perUserPreferences : Nat
deriving DecidableEq, Repr

/-- The dashboard `summary` query handler: per-status/priority counts,
overdue count, completion rate over non-archived tasks (0 when there are
none), 7-day activity count, and the dynamic per-table counts (each table
scanned and filtered by `userId`). -/
def dashboardSummary (db : DB) (auth : Option Nat) (now : Int) :
    Except Err DashboardSummary :=
  match auth with
  | none => .error .notAuthenticated
  | some u =>
    let allTasks := getTasksByUser db u
    let totalTasks := allTasks.length
    let todoTasks := (allTasks.filter (fun t => t.status == .todo)).length
    let inProgressTasks :=
      (allTasks.filter (fun t => t.status == .in_progress)).length
    let completedTasks :=
      (allTasks.filter (fun t => t.status == .completed)).length
    let overdueTasks := (getOverdueTasks db u now).length
    let highPriorityTasks :=
      (allTasks.filter (fun t =>
        (t.priority == .high || t.priority == .urgent) &&
          t.status != .completed && t.status != .archived)).length
    let totalCategories := (getCategoriesByUser db u).length
    let activeTasksCount :=
      (allTasks.filter (fun t => t.status != .archived)).length
    let completionRate :=
      if activeTasksCount > 0 then roundPct completedTasks activeTasksCount
      else 0
    let sevenDaysAgo := now - 7 * 24 * 60 * 60 * 1000
    let recentActivityCount :=
      ((getActivityByUser db u).filter
        (fun a => a.createdAt ≥ sevenDaysAgo)).length
    .ok
      { totalTasks := totalTasks, todoTasks := todoTasks
        inProgressTasks := inProgressTasks, completedTasks := completedTasks
        overdueTasks := overdueTasks, highPriorityTasks := highPriorityTasks
        totalCategories := totalCategories, completionRate := completionRate
        recentActivityCount := recentActivityCount
        perTasks := (db.tasks.filter (fun r => r.userId == u)).length
        perTaskComments :=
          (db.taskComments.filter (fun r => r.userId == u)).length
        perTaskActivity :=
          (db.taskActivity.filter (fun r => r.userId == u)).length
        perUserPreferences :=
          (db.userPreferences.filter (fun r => r.userId == u)).length }

-- ===========================================================================
-- Endpoint layer: categories (convex/endpoints/categories.ts)
-- ===========================================================================

/-- Arguments of the category `create` mutation. -/
structure CategoryCreateArgs where
  name : String
  color : String
  icon : Option String := none
deriving DecidableEq, Repr

/-- The category `create` mutation handler: authenticate, rate-limit, reject
when the user already has `MAX_CATEGORIES_PER_USER` categories (before any
validation), validate (trimmed name, hex color, icon), compute the next
order, insert. -/
def categoriesCreate (db : DB) (auth : Option Nat) (rlOk : Bool)
    (args : CategoryCreateArgs) (now : Int) : Except Err (DB × Nat) :=
  match auth with
  | none => .error .notAuthenticated
  | some u =>
    if !rlOk then .error .rateLimited
    else if (getCategoriesByUser db u).length ≥ MAX_CATEGORIES_PER_USER then
      .error .limitExceeded
    else
      let name := sanitizeInput args.name
      if !(isValidCategoryName name) then
        .error (.invalidInput "Category name must be between 1 and 50 characters")
      else if !(isValidHexColor args.color) then
        .error (.invalidInput "Invalid color format. Must be a hex color")
      else if (match args.icon with
               | some i => i != "" && !(isValidIconName i)
               | none => false) then
        .error (.invalidInput "Invalid icon name")
      else
        let nextOrder := getNextCategoryOrder db u
        let created := createCategory db
          { userId := u, name := name, color := args.color, icon := args.icon
            order := nextOrder } now
        .ok (created.1, created.2)

/-- The two delete modes of the category `remove` mutation. -/
inductive DeleteMode where
  | unlink
  | deleteTasks
deriving DecidableEq, Repr

/-- The category `remove` mutation handler: authenticate, rate-limit, check
ownership; in `deleteTasks` mode delete every task referencing the category,
in `unlink` mode patch each such task with `categoryId: undefined`; then
delete the category. -/
def categoriesRemove (db : DB) (auth : Option Nat) (rlOk : Bool) (id : Nat)
    (deleteMode : DeleteMode) (now : Int) : Except Err (DB × Nat) :=
  match auth with
  | none => .error .notAuthenticated
  | some u =>
    if !rlOk then .error .rateLimited
    else match getCategoryById db id with
    | none => .error .notFound
    | some category =>
      if category.userId != u then .error .notAuthorized
      else
        let tasksInCategory := getTasksByCategory db id
        let db1 :=
          match deleteMode with
          | .deleteTasks => deleteTasks db (tasksInCategory.map (fun t => t.id))
          | .unlink =>
            tasksInCategory.foldl
              (fun d t => updateTask d t.id { categoryId := some none } now) db
        let db2 := deleteCategory db1 id
        .ok (db2, id)

-- ===========================================================================
-- Well-formedness: Convex document ids are unique per table
-- ===========================================================================

/-- Ids are unique in the tasks table and `nextId` is fresh (Convex
guarantees both for every table; this is the representation invariant the
list model needs). -/
def WFTasks (db : DB) : Prop :=
  (db.tasks.map (fun t => t.id)).Nodup ∧ ∀ t ∈ db.tasks, t.id < db.nextId

instance (db : DB) : Decidable (WFTasks db) := by
  unfold WFTasks
  infer_instance

-- ===========================================================================
-- General lemmas about the store model
-- ===========================================================================

/-- Decidable equality of handler results, so concrete runs can be settled
by `decide`. -/
instance {ε α : Type} [DecidableEq ε] [DecidableEq α] :
    DecidableEq (Except ε α) := fun x y =>
  match x, y with
  | .ok a, .ok b =>
    if h : a = b then isTrue (by rw [h])
    else isFalse (by intro he; cases he; exact h rfl)
  | .error e, .error f =>
    if h : e = f then isTrue (by rw [h])
    else isFalse (by intro he; cases he; exact h rfl)
  | .ok _, .error _ => isFalse (by intro he; cases he)
  | .error _, .ok _ => isFalse (by intro he; cases he)

/-- A record returned by `getTaskById` carries the id it was looked up by. -/
theorem getTaskById_eq_some_id {db : DB} {i : Nat} {t : Task}
    (h : getTaskById db i = some t) : t.id = i := by
  unfold getTaskById at h
  simpa using List.find?_some h

/-- A record returned by `getTaskById` is in the table. -/
theorem getTaskById_mem {db : DB} {i : Nat} {t : Task}
    (h : getTaskById db i = some t) : t ∈ db.tasks := by
  unfold getTaskById at h
  exact List.mem_of_find?_eq_some h

/-- The `find?` by id over a list with unique ids locates any member. -/
theorem find?_id_of_mem {l : List Task}
    (hnd : (l.map (fun t => t.id)).Nodup) {t : Task} (ht : t ∈ l) :
    l.find? (fun x => x.id == t.id) = some t := by
  induction l with
  | nil => cases ht
  | cons x xs ih =>
    rcases List.mem_cons.mp ht with rfl | hmem
    · simp [List.find?]
    · rw [List.map_cons] at hnd
      have hnd' := List.nodup_cons.mp hnd
      have hx : (x.id == t.id) = false := by
        simp only [beq_eq_false_iff_ne, ne_eq]
        intro he
        exact hnd'.1 (he ▸ List.mem_map_of_mem (fun t => t.id) hmem)
      simp only [List.find?, hx]
      exact ih hnd'.2 hmem

/-- In a well-formed store, looking a member up by its id returns it. -/
theorem getTaskById_of_mem {db : DB} (hwf : WFTasks db) {t : Task}
    (ht : t ∈ db.tasks) : getTaskById db t.id = some t :=
  find?_id_of_mem hwf.1 ht

/-- In a well-formed store, members are determined by their ids. -/
theorem task_id_injective {db : DB} (hwf : WFTasks db) {t t' : Task}
    (ht : t ∈ db.tasks) (ht' : t' ∈ db.tasks) (h : t.id = t'.id) : t = t' :=
  List.inj_on_of_nodup_map hwf.1 ht ht' h

/-- The `patchTask` seen through `getTaskById`: the looked-up record is rewritten
exactly when its id is the patched one (for any id-preserving rewrite). -/
theorem getTaskById_patchTask (db : DB) (id i : Nat) (f : Task → Task)
    (hf : ∀ t, (f t).id = t.id) :
    getTaskById (patchTask db id f) i =
      (getTaskById db i).map (fun t => if t.id = id then f t else t) := by
  unfold getTaskById patchTask
  simp only
  rw [List.find?_map]
  have hfun :
      ((fun x : Task => x.id == i) ∘ fun t => if t.id = id then f t else t) =
        fun t : Task => t.id == i := by
    funext t
    by_cases h : t.id = id <;> simp [h, hf]
  rw [hfun]

/-- The `patchTask` at the patched id rewrites the looked-up record. -/
theorem getTaskById_patchTask_at (db : DB) (id : Nat) (f : Task → Task)
    (hf : ∀ t, (f t).id = t.id) :
    getTaskById (patchTask db id f) id = (getTaskById db id).map f := by
  rw [getTaskById_patchTask db id id f hf]
  cases h : getTaskById db id with
  | none => rfl
  | some t => simp [getTaskById_eq_some_id h]

/-- The `patchTask` at a different id leaves the looked-up record alone. -/
theorem getTaskById_patchTask_ne (db : DB) (id i : Nat) (f : Task → Task)
    (hf : ∀ t, (f t).id = t.id) (hne : i ≠ id) :
    getTaskById (patchTask db id f) i = getTaskById db i := by
  rw [getTaskById_patchTask db id i f hf]
  cases h : getTaskById db i with
  | none => rfl
  | some t =>
    have : t.id ≠ id := by
      rw [getTaskById_eq_some_id h]
      exact hne
    simp [this]

/-- A fold of id-keyed patches over a list of handles, the common shape of
`updateTaskOrders` and the category-unlink loop. -/
def foldPatches {α : Type} (db : DB) (l : List α) (key : α → Nat)
    (g : α → Task → Task) : DB :=
  l.foldl (fun d a => patchTask d (key a) (g a)) db

/-- A fold of patches leaves records outside its key set alone. -/
theorem foldPatches_not_mem {α : Type} {l : List α} {key : α → Nat}
    {g : α → Task → Task} (hg : ∀ a t, (g a t).id = t.id) {db : DB} {i : Nat}
    (h : i ∉ l.map key) :
    getTaskById (foldPatches db l key g) i = getTaskById db i := by
  induction l generalizing db with
  | nil => rfl
  | cons a rest ih =>
    simp only [List.map_cons, List.mem_cons, not_or] at h
    calc getTaskById (foldPatches (patchTask db (key a) (g a)) rest key g) i
        = getTaskById (patchTask db (key a) (g a)) i := ih h.2
      _ = getTaskById db i := getTaskById_patchTask_ne _ _ _ _ (hg a) h.1

/-- With pairwise-distinct keys, a fold of patches rewrites each listed
record by its own patch. -/
theorem foldPatches_mem {α : Type} {l : List α} {key : α → Nat}
    {g : α → Task → Task} (hg : ∀ a t, (g a t).id = t.id)
    (hnd : (l.map key).Nodup) {db : DB} :
    ∀ a ∈ l, getTaskById (foldPatches db l key g) (key a) =
      (getTaskById db (key a)).map (g a) := by
  induction l generalizing db with
  | nil => intro a ha; cases ha
  | cons b rest ih =>
    rw [List.map_cons] at hnd
    have hnd' := List.nodup_cons.mp hnd
    intro a ha
    rcases List.mem_cons.mp ha with rfl | hmem
    · calc getTaskById (foldPatches (patchTask db (key a) (g a)) rest key g) (key a)
          = getTaskById (patchTask db (key a) (g a)) (key a) :=
            foldPatches_not_mem hg hnd'.1
        _ = (getTaskById db (key a)).map (g a) :=
            getTaskById_patchTask_at _ _ _ (hg a)
    · have hne : key a ≠ key b := by
        intro he
        exact hnd'.1 (he ▸ List.mem_map_of_mem key hmem)
      calc getTaskById (foldPatches (patchTask db (key b) (g b)) rest key g) (key a)
          = (getTaskById (patchTask db (key b) (g b)) (key a)).map (g a) :=
            ih hnd'.2 a hmem
        _ = (getTaskById db (key a)).map (g a) := by
            rw [getTaskById_patchTask_ne _ _ _ _ (hg b) hne]

/-- A fold of patches only touches the tasks table. -/
theorem foldPatches_categories {α : Type} (db : DB) (l : List α)
    (key : α → Nat) (g : α → Task → Task) :
    (foldPatches db l key g).categories = db.categories := by
  induction l generalizing db with
  | nil => rfl
  | cons a rest ih => exact ih (patchTask db (key a) (g a))

/-- Membership in the tasks table after a bulk `deleteTasks`. -/
theorem mem_deleteTasks {db : DB} {ids : List Nat} {t : Task} :
    t ∈ (deleteTasks db ids).tasks ↔ t ∈ db.tasks ∧ t.id ∉ ids := by
  induction ids generalizing db with
  | nil => simp [deleteTasks]
  | cons i is ih =>
    show t ∈ (deleteTasks (deleteTask db i) is).tasks ↔ _
    rw [ih]
    simp only [deleteTask, List.mem_filter, bne_iff_ne, ne_eq,
      List.mem_cons, not_or]
    tauto

/-- The `deleteTasks` only touches the tasks table. -/
theorem deleteTasks_categories (db : DB) (ids : List Nat) :
    (deleteTasks db ids).categories = db.categories := by
  induction ids generalizing db with
  | nil => rfl
  | cons i is ih => exact ih (deleteTask db i)

/-- The initial value bounds a `foldl max`. -/
theorem init_le_foldl_max (l : List Int) (b : Int) : b ≤ l.foldl max b := by
  induction l generalizing b with
  | nil => exact le_refl b
  | cons a as ih => exact le_trans (le_max_left b a) (ih (max b a))

/-- Every member bounds a `foldl max`. -/
theorem mem_le_foldl_max {l : List Int} {x : Int} (hx : x ∈ l) (b : Int) :
    x ≤ l.foldl max b := by
  induction l generalizing b with
  | nil => cases hx
  | cons a as ih =>
    rcases List.mem_cons.mp hx with rfl | hmem
    · exact le_trans (le_max_right b x) (init_le_foldl_max as (max b x))
    · exact ih hmem (max b a)

/-- The `listMax` bounds every member. -/
theorem le_listMax {l : List Int} {x : Int} (hx : x ∈ l) : x ≤ listMax l := by
  cases l with
  | nil => cases hx
  | cons a as =>
    rcases List.mem_cons.mp hx with rfl | hmem
    · exact init_le_foldl_max as x
    · exact mem_le_foldl_max hmem a

/-- A `foldl max` is the initial value or a member. -/
theorem foldl_max_mem (l : List Int) (b : Int) :
    l.foldl max b = b ∨ l.foldl max b ∈ l := by
  induction l generalizing b with
  | nil => exact Or.inl rfl
  | cons a as ih =>
    rcases ih (max b a) with h | h
    · rcases max_choice b a with hb | ha
      · exact Or.inl (h.trans hb)
      · exact Or.inr (List.mem_cons.mpr (Or.inl (h.trans ha)))
    · exact Or.inr (List.mem_cons.mpr (Or.inr h))

/-- The `listMax` of a nonempty list is a member. -/
theorem listMax_mem {l : List Int} (h : l ≠ []) : listMax l ∈ l := by
  cases l with
  | nil => exact absurd rfl h
  | cons a as =>
    rcases foldl_max_mem as a with h' | h'
    · exact List.mem_cons.mpr (Or.inl h')
    · exact List.mem_cons.mpr (Or.inr h')

/-- Logging an activity record does not change the tasks table. -/
theorem getTaskById_createTaskActivity (db : DB) (tid uid : Nat)
    (a : TaskActivityAction) (c : Option ActivityChanges)
    (m : Option ActivityMeta) (now : Int) (i : Nat) :
    getTaskById (createTaskActivity db tid uid a c m now).1 i =
      getTaskById db i := rfl

/-- The `completeTask` through `getTaskById`. -/
theorem getTaskById_completeTask {db : DB} {id : Nat} (now : Int) {t : Task}
    (h : getTaskById db id = some t) :
    getTaskById (completeTask db id now) id =
      some { t with status := .completed, completedAt := some now,
                    updatedAt := now } := by
  unfold completeTask
  rw [getTaskById_patchTask_at db id
    (fun t => { t with status := .completed, completedAt := some now,
                       updatedAt := now }) (fun t => rfl), h]
  rfl

/-- The `reopenTask` through `getTaskById`. -/
theorem getTaskById_reopenTask {db : DB} {id : Nat} (now : Int) {t : Task}
    (h : getTaskById db id = some t) :
    getTaskById (reopenTask db id now) id =
      some { t with status := .todo, completedAt := none, updatedAt := now } := by
  unfold reopenTask
  rw [getTaskById_patchTask_at db id
    (fun t => { t with status := .todo, completedAt := none,
                       updatedAt := now }) (fun t => rfl), h]
  rfl

/-- The `archiveTask` through `getTaskById`. -/
theorem getTaskById_archiveTask {db : DB} {id : Nat} (now : Int) {t : Task}
    (h : getTaskById db id = some t) :
    getTaskById (archiveTask db id now) id =
      some { t with status := .archived, updatedAt := now } := by
  unfold archiveTask
  rw [getTaskById_patchTask_at db id
    (fun t => { t with status := .archived, updatedAt := now })
    (fun t => rfl), h]
  rfl

/-- The `updateTask` through `getTaskById` at the patched id. -/
theorem getTaskById_updateTask {db : DB} {id : Nat} (args : UpdateTaskArgs)
    (now : Int) {t : Task} (h : getTaskById db id = some t) :
    getTaskById (updateTask db id args now) id =
      some (applyTaskPatch t args now) := by
  unfold updateTask
  rw [getTaskById_patchTask_at db id
    (fun t => applyTaskPatch t args now) (fun t => rfl), h]
  rfl

-- ===========================================================================
-- C6: complete sets status/completedAt, reopen clears
-- ===========================================================================

/-- C6: for every task owned by the caller, the `complete` handler sets the
task's status to completed and its `completedAt` to the (non-null) current
timestamp, and the `reopen` handler sets the status to todo and clears
`completedAt`. -/
theorem complete_sets_and_reopen_clears_completedAt (db : DB) (u id : Nat)
    (task : Task) (now : Int) (hfind : getTaskById db id = some task)
    (hown : task.userId = u) :
    ((tasksComplete db (some u) id now).map
        (fun r => (getTaskById r.1 id).map (fun t => (t.status, t.completedAt)))
      = .ok (some (.completed, some now))) ∧
    ((tasksReopen db (some u) id now).map
        (fun r => (getTaskById r.1 id).map (fun t => (t.status, t.completedAt)))
      = .ok (some (.todo, none))) := by
  have hbeq : (task.userId != u) = false := by simp [hown]
  constructor
  · simp only [tasksComplete, hfind, hbeq, Bool.false_eq_true, if_false,
      Except.map, logTaskCompleted, getTaskById_createTaskActivity,
      getTaskById_completeTask now hfind, Option.map_some']
  · simp only [tasksReopen, hfind, hbeq, Bool.false_eq_true, if_false,
      Except.map, logStatusChanged, getTaskById_createTaskActivity,
      getTaskById_reopenTask now hfind, Option.map_some']

/-- A concrete task for the C6 witness. -/
def c6task : Task :=
  { id := 0, userId := 7, title := "write spec", priority := .medium,
    status := .in_progress, order := 0, createdAt := 0, updatedAt := 0 }

/-- Witness store for C6. -/
def c6db : DB := { tasks := [c6task], nextId := 1 }

/-- C6 witness: the theorem applied to the one-task store `c6db`. -/
theorem complete_sets_and_reopen_clears_completedAt_witness :
    (getTaskById c6db 0 = some c6task ∧ c6task.userId = 7) ∧
    ((tasksComplete c6db (some 7) 0 55).map
        (fun r => (getTaskById r.1 0).map (fun t => (t.status, t.completedAt)))
      = .ok (some (.completed, some 55))) ∧
    ((tasksReopen c6db (some 7) 0 55).map
        (fun r => (getTaskById r.1 0).map (fun t => (t.status, t.completedAt)))
      = .ok (some (.todo, none))) := by
  refine ⟨⟨by decide, by decide⟩, ?_, ?_⟩
  · exact (complete_sets_and_reopen_clears_completedAt c6db 7 0 c6task 55
      (by decide) (by decide)).1
  · exact (complete_sets_and_reopen_clears_completedAt c6db 7 0 c6task 55
      (by decide) (by decide)).2

-- ===========================================================================
-- Run lemmas for the create and update handlers
-- ===========================================================================

/-- The `getTaskById` only reads the tasks table. -/
theorem getTaskById_congr_tasks {db1 db2 : DB} (h : db1.tasks = db2.tasks)
    (i : Nat) : getTaskById db1 i = getTaskById db2 i := by
  unfold getTaskById
  rw [h]

/-- When a store's tasks are `l ++ [t]` and no id in `l` collides, looking up
`t.id` finds `t`. -/
theorem getTaskById_of_tasks_append {db' : DB} {l : List Task} {t : Task}
    (htasks : db'.tasks = l ++ [t]) (hfresh : ∀ x ∈ l, x.id ≠ t.id) :
    getTaskById db' t.id = some t := by
  unfold getTaskById
  rw [htasks, List.find?_append]
  have hnone : l.find? (fun x => x.id == t.id) = none := by
    rw [List.find?_eq_none]
    intro x hx
    simpa using hfresh x hx
  simp [hnone, List.find?]

/-- Anatomy of a successful `create` run: the returned id is the fresh id and
the new store is the old tasks plus the inserted record (the activity log
insert does not touch the tasks table). -/
theorem tasksCreate_ok {db : DB} {u : Nat} {rl : Bool} {args : TaskCreateArgs}
    {now : Int} {db' : DB} {tid : Nat}
    (h : tasksCreate db (some u) rl args now = .ok (db', tid)) :
    tid = db.nextId ∧
    db'.tasks = db.tasks ++
      [{ id := db.nextId, userId := u, title := sanitizeInput args.title
         description := args.description, categoryId := args.categoryId
         priority := args.priority.getD DEFAULT_PRIORITY
         status := DEFAULT_STATUS, dueDate := args.dueDate
         completedAt := none, tags := args.tags
         order :=
           if (getTasksByUser db u).length > 0 then
             listMax ((getTasksByUser db u).map (fun t => t.order)) + 1
           else 0
         createdAt := now, updatedAt := now }] := by
  simp only [tasksCreate] at h
  repeat' split at h
  all_goals
    first
      | (simp at h
         done)
      | (simp only [Except.ok.injEq, Prod.mk.injEq] at h
         obtain ⟨rfl, rfl⟩ := h
         refine ⟨rfl, ?_⟩
         split <;> first | rfl | (exfalso; omega))

/-- Anatomy of a successful `update` run: the returned id is the argument id
and the new tasks table is the patched one (the activity log inserts do not
touch the tasks table). -/
theorem tasksUpdate_ok {db : DB} {u : Nat} {rl : Bool} {args : TaskUpdateArgs}
    {now : Int} {db' : DB} {rid : Nat}
    (h : tasksUpdate db (some u) rl args now = .ok (db', rid)) :
    rid = args.id ∧
    db'.tasks = (updateTask db args.id
      { title := args.title, description := args.description
        categoryId := args.categoryId.map some, priority := args.priority
        status := args.status, dueDate := args.dueDate, completedAt := none
        tags := args.tags, order := none } now).tasks := by
  simp only [tasksUpdate] at h
  repeat' split at h
  all_goals
    first
      | (simp at h
         done)
      | (simp only [Except.ok.injEq, Prod.mk.injEq] at h
         obtain ⟨rfl, rfl⟩ := h
         exact ⟨rfl, rfl⟩)

-- ===========================================================================
-- C1: completedAt iff status = completed, per handler
-- ===========================================================================

/-- The claimed invariant on one record: `completedAt` is set iff the status
is completed. -/
def completedAtOk (t : Task) : Bool :=
  t.completedAt.isSome == (t.status == TaskStatus.completed)

/-- A consistent completed task (status completed, `completedAt` set). -/
def c1task : Task :=
  { id := 0, userId := 3, title := "done item", priority := .low,
    status := .completed, completedAt := some 5, order := 0, createdAt := 0,
    updatedAt := 0 }

/-- Store for the C1 counterexample, satisfying the invariant. -/
def c1db : DB := { tasks := [c1task], nextId := 1 }

/-- C1 counterexample: starting from a store where every task satisfies the
invariant, updating the completed task's status to todo via the `update`
handler, or archiving it via the `archive` handler, leaves `completedAt`
set while the status is no longer completed — the invariant does not hold
after these operations, contradicting the claim that every handler
operation keeps `completedAt` consistent with the resulting status. -/
theorem update_and_archive_break_completedAt_invariant :
    c1db.tasks.all completedAtOk = true ∧
    ((tasksUpdate c1db (some 3) true { id := 0, status := some .todo } 100).map
        (fun r => r.1.tasks.all completedAtOk) = .ok false) ∧
    ((tasksArchive c1db (some 3) 0 100).map
        (fun r => r.1.tasks.all completedAtOk) = .ok false) := by
  decide

/-- C1 (amended): the invariant is established by `create` (status todo,
`completedAt` unset) and restored by `complete` (sets both) and `reopen`
(clears `completedAt`, status todo); the `update` and `archive` handlers
never modify `completedAt`, so they can leave it inconsistent when they move
the status into or out of completed. -/
theorem completedAt_invariant_per_handler (db : DB) (u id : Nat) (task : Task)
    (now : Int) (hwf : WFTasks db) (hfind : getTaskById db id = some task)
    (hown : task.userId = u) :
    (∀ rl args db' tid, tasksCreate db (some u) rl args now = .ok (db', tid) →
        (getTaskById db' tid).map completedAtOk = some true) ∧
    ((tasksComplete db (some u) id now).map
        (fun r => (getTaskById r.1 id).map completedAtOk) = .ok (some true)) ∧
    ((tasksReopen db (some u) id now).map
        (fun r => (getTaskById r.1 id).map completedAtOk) = .ok (some true)) ∧
    (∀ rl args db' rid, args.id = id →
        tasksUpdate db (some u) rl args now = .ok (db', rid) →
        (getTaskById db' id).map (fun t => t.completedAt)
          = some task.completedAt) ∧
    ((tasksArchive db (some u) id now).map
        (fun r => (getTaskById r.1 id).map (fun t => t.completedAt))
      = .ok (some task.completedAt)) := by
  have hbeq : (task.userId != u) = false := by simp [hown]
  refine ⟨?_, ?_, ?_, ?_, ?_⟩
  · intro rl args db' tid h
    obtain ⟨htid, htasks⟩ := tasksCreate_ok h
    subst htid
    rw [getTaskById_of_tasks_append htasks
      (fun x hx => Nat.ne_of_lt (hwf.2 x hx))]
    rfl
  · simp only [tasksComplete, hfind, hbeq, Bool.false_eq_true, if_false,
      Except.map, logTaskCompleted, getTaskById_createTaskActivity,
      getTaskById_completeTask now hfind, Option.map_some']
    rfl
  · simp only [tasksReopen, hfind, hbeq, Bool.false_eq_true, if_false,
      Except.map, logStatusChanged, getTaskById_createTaskActivity,
      getTaskById_reopenTask now hfind, Option.map_some']
    rfl
  · intro rl args db' rid harg h
    obtain ⟨hrid, htasks⟩ := tasksUpdate_ok h
    subst harg
    rw [getTaskById_congr_tasks htasks args.id,
      getTaskById_updateTask _ now hfind]
    rfl
  · simp only [tasksArchive, hfind, hbeq, Bool.false_eq_true, if_false,
      Except.map, logStatusChanged, getTaskById_createTaskActivity,
      getTaskById_archiveTask now hfind, Option.map_some']

/-- Witness store for the amended C1. -/
def c1wdb : DB := { tasks := [c1task], nextId := 1 }

/-- C1 witness: the amended theorem applied to the concrete store `c1wdb`,
with one of its consequences (reopening the completed task restores the
invariant) spelled out. -/
theorem completedAt_invariant_per_handler_witness :
    (WFTasks c1wdb ∧ getTaskById c1wdb 0 = some c1task ∧ c1task.userId = 3) ∧
    ((tasksReopen c1wdb (some 3) 0 77).map
        (fun r => (getTaskById r.1 0).map completedAtOk) = .ok (some true)) := by
  refine ⟨⟨by decide, by decide, by decide⟩, ?_⟩
  exact (completedAt_invariant_per_handler c1wdb 3 0 c1task 77
    (by decide) (by decide) (by decide)).2.2.1

-- ===========================================================================
-- C4: create assigns order 0 or max existing order + 1
-- ===========================================================================

/-- C4: when validation passes, the `create` handler succeeds and the new
task's order is 0 when the user owns no tasks, and the maximum order among
the user's tasks plus one otherwise (expressed order-independently: the new
order is some owned task's order plus one and strictly exceeds every owned
task's order). -/
theorem create_assigns_next_order (db : DB) (u : Nat) (args : TaskCreateArgs)
    (now : Int) (hwf : WFTasks db)
    (hT : isValidTaskTitle (sanitizeInput args.title) = true)
    (hD : descriptionRejected args.description = false)
    (hG : tagsRejected args.tags = false)
    (hDD : dueDateRejected now args.dueDate = false) :
    ∃ db' tid, tasksCreate db (some u) true args now = .ok (db', tid) ∧
      ∃ t, getTaskById db' tid = some t ∧
        ((db.tasks.filter (fun x => x.userId == u)) = [] → t.order = 0) ∧
        ((db.tasks.filter (fun x => x.userId == u)) ≠ [] →
          (∃ x ∈ db.tasks.filter (fun x => x.userId == u),
              t.order = x.order + 1) ∧
          ∀ x ∈ db.tasks.filter (fun x => x.userId == u), x.order < t.order) := by
  obtain ⟨db', tid, hrun⟩ :
      ∃ db' tid, tasksCreate db (some u) true args now = .ok (db', tid) := by
    simp only [tasksCreate, hT, hD, hG, hDD, Bool.not_true, Bool.false_eq_true,
      if_false]
    exact ⟨_, _, rfl⟩
  obtain ⟨htid, htasks⟩ := tasksCreate_ok hrun
  subst htid
  refine ⟨db', db.nextId, hrun, _,
    getTaskById_of_tasks_append htasks
      (fun x hx => Nat.ne_of_lt (hwf.2 x hx)), ?_, ?_⟩
  · intro hemp
    show (if (getTasksByUser db u).length > 0 then
        listMax ((getTasksByUser db u).map (fun t => t.order)) + 1
      else 0) = 0
    rw [if_neg]
    simp [getTasksByUser, hemp]
  · intro hne
    have hlen : (getTasksByUser db u).length > 0 := by
      simp only [getTasksByUser, List.length_reverse]
      exact List.length_pos.mpr hne
    constructor
    · have hmapne : (getTasksByUser db u).map (fun t => t.order) ≠ [] := by
        intro hmap
        rw [List.map_eq_nil_iff] at hmap
        rw [hmap] at hlen
        exact absurd hlen (by simp)
      obtain ⟨x, hx, hxo⟩ := List.mem_map.mp (listMax_mem hmapne)
      refine ⟨x, ?_, ?_⟩
      · simpa [getTasksByUser] using hx
      · show (if (getTasksByUser db u).length > 0 then
            listMax ((getTasksByUser db u).map (fun t => t.order)) + 1
          else 0) = x.order + 1
        rw [if_pos hlen, hxo]
    · intro x hx
      have hmem : x.order ∈ (getTasksByUser db u).map (fun t => t.order) :=
        List.mem_map_of_mem _ (by simpa [getTasksByUser] using hx)
      have hle := le_listMax hmem
      show x.order < (if (getTasksByUser db u).length > 0 then
          listMax ((getTasksByUser db u).map (fun t => t.order)) + 1
        else 0)
      rw [if_pos hlen]
      omega

/-- Witness store for C4: caller 0 owns orders 3 and 7; another user owns
order 99. -/
def c4db : DB :=
  { tasks := [
      { id := 0, userId := 0, title := "one", priority := .medium,
        status := .todo, order := 3, createdAt := 0, updatedAt := 0 },
      { id := 1, userId := 0, title := "two", priority := .medium,
        status := .todo, order := 7, createdAt := 0, updatedAt := 0 },
      { id := 2, userId := 9, title := "их", priority := .medium,
        status := .todo, order := 99, createdAt := 0, updatedAt := 0 }],
    nextId := 3 }

/-- C4 witness: the theorem applied to `c4db` (the created task gets order
8 = 7 + 1; the direct run is also checked concretely). -/
theorem create_assigns_next_order_witness :
    (WFTasks c4db ∧
      isValidTaskTitle (sanitizeInput "third") = true ∧
      descriptionRejected none = false ∧ tagsRejected none = false ∧
      dueDateRejected 100 none = false) ∧
    (∃ db' tid,
      tasksCreate c4db (some 0) true { title := "third" } 100 = .ok (db', tid) ∧
      ∃ t, getTaskById db' tid = some t ∧
        ((c4db.tasks.filter (fun x => x.userId == 0)) = [] → t.order = 0) ∧
        ((c4db.tasks.filter (fun x => x.userId == 0)) ≠ [] →
          (∃ x ∈ c4db.tasks.filter (fun x => x.userId == 0),
              t.order = x.order + 1) ∧
          ∀ x ∈ c4db.tasks.filter (fun x => x.userId == 0),
            x.order < t.order)) ∧
    ((tasksCreate c4db (some 0) true { title := "third" } 100).map
        (fun r => (getTaskById r.1 r.2).map (fun t => t.order))
      = .ok (some 8)) := by
  refine ⟨⟨by decide, by decide, by decide, by decide, by decide⟩, ?_, by decide⟩
  exact create_assigns_next_order c4db 0 { title := "third" } 100
    (by decide) (by decide) (by decide) (by decide) (by decide)

-- ===========================================================================
-- C2: task delete cascades to comments and activity; reads then fail
-- ===========================================================================

/-- C2: for a task owned by the caller, the `remove` handler succeeds and
afterwards no comment and no activity record references the task (including
the deleted-activity record the handler logs first), the task itself is gone,
and the `get` handler answers NotFound. The code deletes in the order
comments, activity, task; the final store reflects that every step ran. -/
theorem task_delete_cascades (db : DB) (u id : Nat) (task : Task) (now : Int)
    (hfind : getTaskById db id = some task) (hown : task.userId = u) :
    ∃ db', tasksRemove db (some u) true id now = .ok (db', id) ∧
      (∀ c ∈ db'.taskComments, c.taskId ≠ id) ∧
      (∀ a ∈ db'.taskActivity, a.taskId ≠ id) ∧
      getTaskById db' id = none ∧
      tasksGet db' (some u) id = .error .notFound := by
  have hbeq : (task.userId != u) = false := by simp [hown]
  have hrun : tasksRemove db (some u) true id now =
      .ok (deleteTask (deleteActivityByTask (deleteCommentsByTask
        (logTaskDeleted db id u (some (.deletedTitle task.title)) now).1 id) id)
        id, id) := by
    simp only [tasksRemove, hfind, hbeq, Bool.not_true, Bool.false_eq_true,
      if_false]
  have hnone : getTaskById (deleteTask (deleteActivityByTask
      (deleteCommentsByTask
        (logTaskDeleted db id u (some (.deletedTitle task.title)) now).1 id) id)
      id) id = none := by
    unfold getTaskById
    rw [List.find?_eq_none]
    intro x hx
    simp only [deleteTask, deleteActivityByTask, deleteCommentsByTask,
      List.mem_filter, bne_iff_ne, ne_eq] at hx
    simpa using hx.2
  refine ⟨_, hrun, ?_, ?_, hnone, ?_⟩
  · intro c hc
    simp only [deleteTask, deleteActivityByTask, deleteCommentsByTask,
      List.mem_filter, bne_iff_ne, ne_eq] at hc
    exact hc.2
  · intro a ha
    simp only [deleteTask, deleteActivityByTask, deleteCommentsByTask,
      List.mem_filter, bne_iff_ne, ne_eq] at ha
    exact ha.2
  · simp only [tasksGet, hnone]

/-- Witness store for C2: task 0 of user 4, with a comment and two activity
records referencing it. -/
def c2db : DB :=
  { tasks := [{ id := 0, userId := 4, title := "victim", priority := .high,
                status := .todo, order := 0, createdAt := 0, updatedAt := 0 }],
    taskComments := [{ id := 1, taskId := 0, userId := 4, content := "note",
                       createdAt := 0, updatedAt := 0 }],
    taskActivity := [
      { id := 2, taskId := 0, userId := 4, action := .created, createdAt := 0 },
      { id := 3, taskId := 0, userId := 4, action := .commented,
        createdAt := 0 }],
    nextId := 4 }

/-- The task stored in `c2db`. -/
def c2task : Task :=
  { id := 0, userId := 4, title := "victim", priority := .high,
    status := .todo, order := 0, createdAt := 0, updatedAt := 0 }

/-- C2 witness: the theorem applied to `c2db`. -/
theorem task_delete_cascades_witness :
    (getTaskById c2db 0 = some c2task ∧ c2task.userId = 4) ∧
    (∃ db', tasksRemove c2db (some 4) true 0 50 = .ok (db', 0) ∧
      (∀ c ∈ db'.taskComments, c.taskId ≠ 0) ∧
      (∀ a ∈ db'.taskActivity, a.taskId ≠ 0) ∧
      getTaskById db' 0 = none ∧
      tasksGet db' (some 4) 0 = .error .notFound) :=
  ⟨⟨by decide, by decide⟩,
    task_delete_cascades c2db 4 0 c2task 50 (by decide) (by decide)⟩

-- ===========================================================================
-- C3: reorder validates ownership of every task before any write
-- ===========================================================================

/-- The ownership check the reorder loop performs for one id, as a decidable
predicate: the task exists and belongs to `u`. -/
def ownedBy (db : DB) (u : Nat) (i : Nat) : Bool :=
  match getTaskById db i with
  | none => false
  | some t => t.userId == u

/-- The reorder validation loop succeeds exactly when every referenced task
exists and is owned by the caller. -/
theorem checkTaskOwnership_ok_iff {db : DB} {u : Nat}
    {updates : List OrderUpdate} :
    checkTaskOwnership db u updates = .ok () ↔
      ∀ upd ∈ updates, ownedBy db u upd.id = true := by
  induction updates with
  | nil => simp [checkTaskOwnership]
  | cons upd rest ih =>
    simp only [checkTaskOwnership]
    cases hfind : getTaskById db upd.id with
    | none =>
      constructor
      · intro h
        simp at h
      · intro h
        have := h upd (List.mem_cons_self upd rest)
        rw [ownedBy, hfind] at this
        simp at this
    | some t =>
      by_cases ho : t.userId = u
      · have hbeq : (t.userId != u) = false := by simp [ho]
        simp only [hbeq, Bool.false_eq_true, if_false, ih]
        constructor
        · intro h upd' hupd'
          rcases List.mem_cons.mp hupd' with rfl | hm
          · rw [ownedBy, hfind]
            simp [ho]
          · exact h upd' hm
        · intro h upd' hm
          exact h upd' (List.mem_cons_of_mem upd hm)
      · have hbeq : (t.userId != u) = true := by simp [ho]
        simp only [hbeq, if_true]
        constructor
        · intro h
          simp at h
        · intro h
          have := h upd (List.mem_cons_self upd rest)
          rw [ownedBy, hfind] at this
          simp only [beq_iff_eq] at this
          exact absurd this ho

/-- The reorder validation loop only fails with NotFound or NotAuthorized. -/
theorem checkTaskOwnership_error {db : DB} {u : Nat}
    {updates : List OrderUpdate} {e : Err}
    (h : checkTaskOwnership db u updates = .error e) :
    e = .notFound ∨ e = .notAuthorized := by
  induction updates with
  | nil => simp [checkTaskOwnership] at h
  | cons upd rest ih =>
    simp only [checkTaskOwnership] at h
    cases hfind : getTaskById db upd.id with
    | none =>
      rw [hfind] at h
      exact Or.inl (Except.error.inj h).symm
    | some t =>
      rw [hfind] at h
      dsimp only at h
      by_cases ho : (t.userId != u) = true
      · rw [if_pos ho] at h
        exact Or.inr (Except.error.inj h).symm
      · rw [if_neg ho] at h
        exact ih h

/-- C3: if any referenced task is missing or not owned by the caller, the
`reorder` handler fails with NotFound or NotAuthorized — the validation loop
runs before any write, and the transactional error leaves every task's order
unchanged. If every referenced task is owned by the caller (ids pairwise
distinct), the handler succeeds and every listed task's order is its
requested value. -/
theorem reorder_all_or_nothing (db : DB) (u : Nat)
    (updates : List OrderUpdate) (now : Int) :
    ((∃ upd ∈ updates, ownedBy db u upd.id = false) →
      ∃ e, tasksReorder db (some u) updates now = .error e ∧
        (e = .notFound ∨ e = .notAuthorized)) ∧
    ((∀ upd ∈ updates, ownedBy db u upd.id = true) →
      (updates.map (fun x => x.id)).Nodup →
      ∃ db', tasksReorder db (some u) updates now = .ok db' ∧
        ∀ upd ∈ updates, ∃ t, getTaskById db' upd.id = some t ∧
          t.order = upd.order) := by
  constructor
  · rintro ⟨upd, hm, hbad⟩
    cases hco : checkTaskOwnership db u updates with
    | ok uval =>
      have := checkTaskOwnership_ok_iff.mp hco upd hm
      rw [hbad] at this
      cases this
    | error e =>
      refine ⟨e, ?_, checkTaskOwnership_error hco⟩
      simp [tasksReorder, hco]
  · intro hall hnd
    have hco : checkTaskOwnership db u updates = .ok () :=
      checkTaskOwnership_ok_iff.mpr hall
    refine ⟨updateTaskOrders db updates now, by simp [tasksReorder, hco], ?_⟩
    intro upd hm
    have hfold := @foldPatches_mem OrderUpdate updates (fun x => x.id)
      (fun x t => { t with order := x.order, updatedAt := now })
      (fun a t => rfl) hnd db upd hm
    have howned := hall upd hm
    rw [ownedBy] at howned
    cases hfind : getTaskById db upd.id with
    | none => rw [hfind] at howned; cases howned
    | some t =>
      refine ⟨{ t with order := upd.order, updatedAt := now }, ?_, rfl⟩
      calc getTaskById (updateTaskOrders db updates now) upd.id
          = (getTaskById db upd.id).map
              (fun t => { t with order := upd.order, updatedAt := now }) :=
            hfold
        _ = some { t with order := upd.order, updatedAt := now } := by
            rw [hfind]; rfl

/-- Witness store for C3: tasks 0 and 1 owned by user 2, task 5 owned by
user 9. -/
def c3db : DB :=
  { tasks := [
      { id := 0, userId := 2, title := "a", priority := .medium,
        status := .todo, order := 0, createdAt := 0, updatedAt := 0 },
      { id := 1, userId := 2, title := "b", priority := .medium,
        status := .todo, order := 1, createdAt := 0, updatedAt := 0 },
      { id := 5, userId := 9, title := "c", priority := .medium,
        status := .todo, order := 2, createdAt := 0, updatedAt := 0 }],
    nextId := 6 }

/-- C3 witness: the theorem applied to `c3db`, once with a foreign task in
the batch (fails) and once with an owned batch (both orders applied). -/
theorem reorder_all_or_nothing_witness :
    ((⟨5, 7⟩ : OrderUpdate) ∈ [(⟨0, 9⟩ : OrderUpdate), ⟨5, 7⟩] ∧
      ownedBy c3db 2 5 = false) ∧
    (∃ e, tasksReorder c3db (some 2) [⟨0, 9⟩, ⟨5, 7⟩] 100 = .error e ∧
      (e = .notFound ∨ e = .notAuthorized)) ∧
    ((∀ upd ∈ [(⟨0, 9⟩ : OrderUpdate), ⟨1, 8⟩], ownedBy c3db 2 upd.id = true) ∧
      (([(⟨0, 9⟩ : OrderUpdate), ⟨1, 8⟩]).map (fun x => x.id)).Nodup) ∧
    (∃ db', tasksReorder c3db (some 2) [⟨0, 9⟩, ⟨1, 8⟩] 100 = .ok db' ∧
      ∀ upd ∈ [(⟨0, 9⟩ : OrderUpdate), ⟨1, 8⟩],
        ∃ t, getTaskById db' upd.id = some t ∧ t.order = upd.order) := by
  refine ⟨⟨by decide, by decide⟩, ?_, ⟨by decide, by decide⟩, ?_⟩
  · exact (reorder_all_or_nothing c3db 2 [⟨0, 9⟩, ⟨5, 7⟩] 100).1
      ⟨⟨5, 7⟩, by decide, by decide⟩
  · exact (reorder_all_or_nothing c3db 2 [⟨0, 9⟩, ⟨1, 8⟩] 100).2
      (by decide) (by decide)

-- ===========================================================================
-- C5: dashboard completion rate
-- ===========================================================================

/-- The completion rate in the spec's words: round(100 * completed /
(total - archived)), and 0 when the denominator is 0 (including no tasks at
all). Rounding half away from zero on a nonnegative rational is
floor(x + 1/2), i.e. (200 * c + d) / (2 * d) in natural division. -/
def specCompletionRate (completedCount totalCount archivedCount : Nat) : Nat :=
  if totalCount - archivedCount = 0 then 0
  else (200 * completedCount + (totalCount - archivedCount)) /
    (2 * (totalCount - archivedCount))

/-- Splitting a task list by the archived status. -/
theorem length_filter_status_partition (l : List Task) :
    (l.filter (fun t => t.status != .archived)).length +
      (l.filter (fun t => t.status == .archived)).length = l.length := by
  induction l with
  | nil => rfl
  | cons t ts ih =>
    by_cases h : t.status = TaskStatus.archived
    · have h1 : (t.status != TaskStatus.archived) = false := by simp [h]
      have h2 : (t.status == TaskStatus.archived) = true := by simp [h]
      simp only [List.filter_cons, h1, h2, Bool.false_eq_true, if_false,
        if_true, List.length_cons]
      omega
    · have h1 : (t.status != TaskStatus.archived) = true := by simp [h]
      have h2 : (t.status == TaskStatus.archived) = false := by simp [h]
      simp only [List.filter_cons, h1, h2, Bool.false_eq_true, if_false,
        if_true, List.length_cons]
      omega

/-- C5: the dashboard summary's completion rate equals the spec formula
round(100 * completed / (total - archived)) over the caller's tasks, with 0
when the denominator is 0. -/
theorem dashboard_completion_rate (db : DB) (u : Nat) (now : Int) :
    ∀ s, dashboardSummary db (some u) now = .ok s →
      s.completionRate = specCompletionRate
        (((db.tasks.filter (fun t => t.userId == u)).filter
            (fun t => t.status == .completed)).length)
        ((db.tasks.filter (fun t => t.userId == u)).length)
        (((db.tasks.filter (fun t => t.userId == u)).filter
            (fun t => t.status == .archived)).length) := by
  intro s hs
  simp only [dashboardSummary, Except.ok.injEq] at hs
  subst hs
  dsimp only
  have hcomp : ((getTasksByUser db u).filter
      (fun t => t.status == .completed)).length =
      ((db.tasks.filter (fun t => t.userId == u)).filter
        (fun t => t.status == .completed)).length := by
    simp [getTasksByUser, List.filter_reverse]
  have harch : ((getTasksByUser db u).filter
      (fun t => t.status == .archived)).length =
      ((db.tasks.filter (fun t => t.userId == u)).filter
        (fun t => t.status == .archived)).length := by
    simp [getTasksByUser, List.filter_reverse]
  have hlen : (getTasksByUser db u).length =
      (db.tasks.filter (fun t => t.userId == u)).length := by
    simp [getTasksByUser]
  have hpart := length_filter_status_partition (getTasksByUser db u)
  rw [harch, hlen] at hpart
  rw [hcomp]
  unfold specCompletionRate roundPct
  by_cases hp : ((getTasksByUser db u).filter
      (fun t => t.status != .archived)).length > 0
  · rw [if_pos hp, if_neg (by omega)]
    congr 1 <;> omega
  · rw [if_neg hp, if_pos (by omega)]

/-- Witness store for C5, the spec's own example: task A high/todo, task B
low/completed, task C archived; completion rate 50. -/
def c5db : DB :=
  { tasks := [
      { id := 0, userId := 0, title := "A", priority := .high,
        status := .todo, order := 0, createdAt := 0, updatedAt := 0 },
      { id := 1, userId := 0, title := "B", priority := .low,
        status := .completed, order := 1, createdAt := 0, updatedAt := 0 },
      { id := 2, userId := 0, title := "C", priority := .medium,
        status := .archived, order := 2, createdAt := 0, updatedAt := 0 }],
    nextId := 3 }

/-- The summary `c5db` produces. -/
def c5sum : DashboardSummary :=
  (dashboardSummary c5db (some 0) 1000).toOption.getD
    ⟨0, 0, 0, 0, 0, 0, 0, 0, 0, 0, 0, 0, 0⟩

/-- C5 witness: the theorem applied to `c5db`; the rate is 50, matching the
spec's worked example. -/
theorem dashboard_completion_rate_witness :
    (dashboardSummary c5db (some 0) 1000 = .ok c5sum) ∧
    (c5sum.completionRate = specCompletionRate
      (((c5db.tasks.filter (fun t => t.userId == 0)).filter
          (fun t => t.status == .completed)).length)
      ((c5db.tasks.filter (fun t => t.userId == 0)).length)
      (((c5db.tasks.filter (fun t => t.userId == 0)).filter
          (fun t => t.status == .archived)).length)) ∧
    c5sum.completionRate = 50 :=
  ⟨by decide, dashboard_completion_rate c5db 0 1000 c5sum (by decide),
    by decide⟩

-- ===========================================================================
-- C7: category delete modes (unlink / deleteTasks)
-- ===========================================================================

/-- Deleting a category never touches the tasks table as seen by
`getTaskById`. -/
theorem getTaskById_deleteCategory (X : DB) (cid i : Nat) :
    getTaskById (deleteCategory X cid) i = getTaskById X i := rfl

/-- After `deleteCategory`, the deleted id no longer resolves. -/
theorem getCategoryById_deleteCategory (X : DB) (cid : Nat) :
    getCategoryById (deleteCategory X cid) cid = none := by
  unfold getCategoryById deleteCategory
  rw [List.find?_eq_none]
  intro c hc
  simp only [List.mem_filter, bne_iff_ne, ne_eq] at hc
  simpa using hc.2

/-- A member task of the C7 counterexample store. -/
def c7task : Task :=
  { id := 0, userId := 0, title := "member", categoryId := some 10,
    priority := .medium, status := .todo, order := 0, createdAt := 0,
    updatedAt := 0 }

/-- Counterexample store for C7: one category and one member task whose
stored `updatedAt` is 0. -/
def c7db : DB :=
  { tasks := [c7task],
    categories := [{ id := 10, userId := 0, name := "cat",
                     color := "#FF0000", order := 0, createdAt := 0,
                     updatedAt := 0 }],
    nextId := 11 }

/-- C7 counterexample: deleting the category in unlink mode at time 100
leaves the member task with `categoryId` cleared but with `updatedAt`
rewritten from 0 to 100 — the task is not left "otherwise unchanged" as the
claim states, since `updateTask` always bumps `updatedAt`. -/
theorem unlink_rewrites_updatedAt :
    ((categoriesRemove c7db (some 0) true 10 DeleteMode.unlink 100).map
        (fun r => getTaskById r.1 0)
      = .ok (some { c7task with categoryId := none, updatedAt := 100 })) ∧
    { c7task with categoryId := none, updatedAt := 100 } ≠
      { c7task with categoryId := none } := by
  decide

/-- C7 (amended): deleting an owned category in unlink mode clears the
`categoryId` of every task referencing it, leaving those tasks present and
unchanged except for their `updatedAt` timestamp (which the patch sets to
the current time), and leaves unrelated tasks untouched; in deleteTasks mode
it removes every task referencing the category; in both modes the category
record itself is removed. -/
theorem category_delete_modes (db : DB) (u cid : Nat) (cat : Category)
    (now : Int) (hwf : WFTasks db)
    (hfind : getCategoryById db cid = some cat) (hown : cat.userId = u) :
    (∃ db', categoriesRemove db (some u) true cid .unlink now
        = .ok (db', cid) ∧
      (∀ t ∈ db.tasks, t.categoryId = some cid →
        getTaskById db' t.id =
          some { t with categoryId := none, updatedAt := now }) ∧
      (∀ t ∈ db.tasks, t.categoryId ≠ some cid →
        getTaskById db' t.id = getTaskById db t.id) ∧
      getCategoryById db' cid = none) ∧
    (∃ db', categoriesRemove db (some u) true cid .deleteTasks now
        = .ok (db', cid) ∧
      (∀ t ∈ db'.tasks, t.categoryId ≠ some cid) ∧
      getCategoryById db' cid = none) := by
  have hbeq : (cat.userId != u) = false := by simp [hown]
  have hndL : ((getTasksByCategory db cid).map (fun t => t.id)).Nodup :=
    hwf.1.sublist ((List.filter_sublist db.tasks).map (fun t => t.id))
  have hidsub : ∀ {t : Task}, t ∈ db.tasks → t.categoryId ≠ some cid →
      t.id ∉ (getTasksByCategory db cid).map (fun t => t.id) := by
    intro t ht hcid hmem
    obtain ⟨t', ht', hid⟩ := List.mem_map.mp hmem
    have ht'tasks : t' ∈ db.tasks := (List.mem_filter.mp ht').1
    have : t' = t := task_id_injective hwf ht'tasks ht hid
    subst this
    exact hcid (by simpa using (List.mem_filter.mp ht').2)
  constructor
  · have hrunU : categoriesRemove db (some u) true cid .unlink now =
        .ok (deleteCategory ((getTasksByCategory db cid).foldl
          (fun d t => updateTask d t.id { categoryId := some none } now) db)
          cid, cid) := by
      simp only [categoriesRemove, hfind, hbeq, Bool.not_true,
        Bool.false_eq_true, if_false]
    refine ⟨_, hrunU, ?_, ?_, getCategoryById_deleteCategory _ cid⟩
    · intro t ht hcid
      have htL : t ∈ getTasksByCategory db cid :=
        List.mem_filter.mpr ⟨ht, by simp [hcid]⟩
      have hfold := @foldPatches_mem Task (getTasksByCategory db cid)
        (fun t => t.id)
        (fun t0 t => applyTaskPatch t { categoryId := some none } now)
        (fun a t => rfl) hndL db t htL
      rw [getTaskById_deleteCategory]
      calc getTaskById ((getTasksByCategory db cid).foldl
              (fun d t => updateTask d t.id { categoryId := some none } now)
              db) t.id
          = (getTaskById db t.id).map
              (fun x => applyTaskPatch x { categoryId := some none } now) :=
            hfold
        _ = some { t with categoryId := none, updatedAt := now } := by
            rw [getTaskById_of_mem hwf ht]
            rfl
    · intro t ht hcid
      rw [getTaskById_deleteCategory]
      exact @foldPatches_not_mem Task (getTasksByCategory db cid)
        (fun t => t.id)
        (fun t0 t => applyTaskPatch t { categoryId := some none } now)
        (fun a t => rfl) db t.id (hidsub ht hcid)
  · have hrunD : categoriesRemove db (some u) true cid .deleteTasks now =
        .ok (deleteCategory (deleteTasks db
          ((getTasksByCategory db cid).map (fun t => t.id))) cid, cid) := by
      simp only [categoriesRemove, hfind, hbeq, Bool.not_true,
        Bool.false_eq_true, if_false]
    refine ⟨_, hrunD, ?_, getCategoryById_deleteCategory _ cid⟩
    · intro t htmem
      intro hcid
      have htmem' : t ∈ (deleteTasks db
          ((getTasksByCategory db cid).map (fun t => t.id))).tasks := htmem
      obtain ⟨htdb, htnot⟩ := mem_deleteTasks.mp htmem'
      have : t ∈ getTasksByCategory db cid :=
        List.mem_filter.mpr ⟨htdb, by simp [hcid]⟩
      exact htnot (List.mem_map_of_mem (fun t => t.id) this)

/-- Witness store for C7: category 10 of user 6 with one member task and one
unrelated task. -/
def c7wdb : DB :=
  { tasks := [
      { id := 0, userId := 6, title := "member", categoryId := some 10,
        priority := .medium, status := .todo, order := 0, createdAt := 0,
        updatedAt := 0 },
      { id := 1, userId := 6, title := "free", categoryId := none,
        priority := .medium, status := .todo, order := 1, createdAt := 0,
        updatedAt := 0 }],
    categories := [{ id := 10, userId := 6, name := "work",
                     color := "#00FF00", order := 0, createdAt := 0,
                     updatedAt := 0 }],
    nextId := 11 }

/-- The category stored in `c7wdb`. -/
def c7cat : Category :=
  { id := 10, userId := 6, name := "work", color := "#00FF00", order := 0,
    createdAt := 0, updatedAt := 0 }

/-- C7 witness: the amended theorem applied to `c7wdb`. -/
theorem category_delete_modes_witness :
    (WFTasks c7wdb ∧ getCategoryById c7wdb 10 = some c7cat ∧
      c7cat.userId = 6) ∧
    ((∃ db', categoriesRemove c7wdb (some 6) true 10 .unlink 200
        = .ok (db', 10) ∧
      (∀ t ∈ c7wdb.tasks, t.categoryId = some 10 →
        getTaskById db' t.id =
          some { t with categoryId := none, updatedAt := 200 }) ∧
      (∀ t ∈ c7wdb.tasks, t.categoryId ≠ some 10 →
        getTaskById db' t.id = getTaskById c7wdb t.id) ∧
      getCategoryById db' 10 = none) ∧
    (∃ db', categoriesRemove c7wdb (some 6) true 10 .deleteTasks 200
        = .ok (db', 10) ∧
      (∀ t ∈ db'.tasks, t.categoryId ≠ some 10) ∧
      getCategoryById db' 10 = none)) :=
  ⟨⟨by decide, by decide, by decide⟩,
    category_delete_modes c7wdb 6 10 c7cat 200 (by decide) (by decide)
      (by decide)⟩

-- ===========================================================================
-- C8: search is owner- and status-scoped, but not capped
-- ===========================================================================

/-- Counterexample store for C8: 101 tasks of user 0, all titled "a". -/
def c8db : DB :=
  { tasks := (List.range 101).map (fun i =>
      { id := i, userId := 0, title := "a", priority := .medium,
        status := .todo, order := 0, createdAt := 0, updatedAt := 0 }),
    nextId := 101 }

/-- C8 counterexample: with 101 matching owned tasks (here under a
text-match relation that holds on equal strings), the search endpoint
returns all 101 results — `searchTasks` ends in a plain `.collect()` and
`MAX_SEARCH_RESULTS` (= 100) is never applied, so the result count is not
bounded by the fixed maximum the claim states. -/
theorem search_results_exceed_max :
    ((tasksSearch c8db (fun q t => q == t) (some 0) "a" none).map
        (fun l => l.length) = .ok 101) ∧
    MAX_SEARCH_RESULTS = 100 ∧ 101 > MAX_SEARCH_RESULTS := by
  refine ⟨?_, by decide, by decide⟩
  decide

/-- C8 (amended): every result of the search operation is owned by the
caller, matches the query under the platform's text-match relation, and has
the requested status when a filter is given — but the number of results is
not capped (the `MAX_SEARCH_RESULTS` constant is defined yet unused). -/
theorem search_scoped_to_owner_and_status (db : DB)
    (m : String → String → Bool) (u : Nat) (q : String)
    (st : Option TaskStatus) (res : List Task)
    (h : tasksSearch db m (some u) q st = .ok res) :
    ∀ t ∈ res, m q t.title = true ∧ t.userId = u ∧
      ∀ s, st = some s → t.status = s := by
  intro t ht
  unfold tasksSearch at h
  dsimp only at h
  by_cases hq : (q == "" || ((sanitizeInput q).length == 0)) = true
  · rw [if_pos hq] at h
    obtain rfl := Except.ok.inj h
    cases ht
  · rw [if_neg hq] at h
    obtain rfl := Except.ok.inj h
    unfold searchTasks at ht
    obtain ⟨htm, hcond⟩ := List.mem_filter.mp ht
    simp only [Bool.and_eq_true] at hcond
    refine ⟨hcond.1.1, by simpa using hcond.1.2, ?_⟩
    intro s hst
    subst hst
    simpa using hcond.2

/-- Witness store for C8: two tasks of user 1 (one completed) and a foreign
task with the same title. -/
def c8wdb : DB :=
  { tasks := [
      { id := 0, userId := 1, title := "x", priority := .medium,
        status := .todo, order := 0, createdAt := 0, updatedAt := 0 },
      { id := 1, userId := 1, title := "x", priority := .medium,
        status := .completed, order := 1, createdAt := 0, updatedAt := 0 },
      { id := 2, userId := 9, title := "x", priority := .medium,
        status := .todo, order := 2, createdAt := 0, updatedAt := 0 }],
    nextId := 3 }

/-- The result list of the witness search run. -/
def c8run : List Task :=
  (tasksSearch c8wdb (fun q t => q == t) (some 1) "x"
    (some .completed)).toOption.getD []

/-- C8 witness: the amended theorem applied to the concrete run (which
returns exactly the caller's completed task). -/
theorem search_scoped_to_owner_and_status_witness :
    (tasksSearch c8wdb (fun q t => q == t) (some 1) "x" (some .completed)
      = .ok c8run) ∧
    (∀ t ∈ c8run, ((fun q t => q == t) : String → String → Bool) "x" t.title
        = true ∧
      t.userId = 1 ∧ ∀ s, (some TaskStatus.completed) = some s →
        t.status = s) ∧
    c8run.map (fun t => t.id) = [1] :=
  ⟨by decide,
    search_scoped_to_owner_and_status c8wdb (fun q t => q == t) 1 "x"
      (some .completed) c8run (by decide),
    by decide⟩

-- ===========================================================================
-- C9: due dates earlier than 24h before now are rejected
-- ===========================================================================

/-- C9: in both the create and the update handlers, a supplied non-zero due
date earlier than `now - 24h` is rejected as invalid input ("Invalid due
date"), and one at or after that bound is accepted when the other
validations pass (for update, on a task owned by the caller). -/
theorem due_date_lower_bound (db : DB) (u id : Nat) (task : Task)
    (now d : Int) (hfind : getTaskById db id = some task)
    (hown : task.userId = u) :
    (∀ args : TaskCreateArgs,
      isValidTaskTitle (sanitizeInput args.title) = true →
      descriptionRejected args.description = false →
      tagsRejected args.tags = false →
      args.dueDate = some d → d ≠ 0 → d < now - ONE_DAY_MS →
      tasksCreate db (some u) true args now
        = .error (.invalidInput "Invalid due date")) ∧
    (∀ args : TaskCreateArgs,
      isValidTaskTitle (sanitizeInput args.title) = true →
      descriptionRejected args.description = false →
      tagsRejected args.tags = false →
      args.dueDate = some d → now - ONE_DAY_MS ≤ d →
      ∃ r, tasksCreate db (some u) true args now = .ok r) ∧
    (∀ args : TaskUpdateArgs, args.id = id →
      (match args.title with
       | some ttl => isValidTaskTitle (sanitizeInput ttl)
       | none => true) = true →
      descriptionRejected args.description = false →
      tagsRejected args.tags = false →
      args.dueDate = some d → d ≠ 0 → d < now - ONE_DAY_MS →
      tasksUpdate db (some u) true args now
        = .error (.invalidInput "Invalid due date")) ∧
    (∀ args : TaskUpdateArgs, args.id = id →
      (match args.title with
       | some ttl => isValidTaskTitle (sanitizeInput ttl)
       | none => true) = true →
      descriptionRejected args.description = false →
      tagsRejected args.tags = false →
      args.dueDate = some d → now - ONE_DAY_MS ≤ d →
      ∃ r, tasksUpdate db (some u) true args now = .ok r) := by
  have hbeq : (task.userId != u) = false := by simp [hown]
  have hrej : ∀ dd : Option Int, dd = some d → d ≠ 0 → d < now - ONE_DAY_MS →
      dueDateRejected now dd = true := by
    intro dd hdd hne hlt
    subst hdd
    show (d != 0 && !(isValidDueDate now d)) = true
    rw [Bool.and_eq_true]
    refine ⟨by simpa using hne, ?_⟩
    unfold isValidDueDate
    unfold ONE_DAY_MS at hlt
    simp only [Bool.not_eq_true', decide_eq_false_iff_not, not_le]
    omega
  have hacc : ∀ dd : Option Int, dd = some d → now - ONE_DAY_MS ≤ d →
      dueDateRejected now dd = false := by
    intro dd hdd hge
    subst hdd
    show (d != 0 && !(isValidDueDate now d)) = false
    unfold isValidDueDate
    unfold ONE_DAY_MS at hge
    have : decide (d ≥ now - 24 * 60 * 60 * 1000) = true := by
      simp only [decide_eq_true_eq, ge_iff_le]
      omega
    rw [this]
    simp
  have htguard : ∀ args : TaskUpdateArgs,
      (match args.title with
       | some ttl => isValidTaskTitle (sanitizeInput ttl)
       | none => true) = true →
      (match args.title with
       | some t => !(isValidTaskTitle (sanitizeInput t))
       | none => false) = false := by
    intro args hTu
    cases htl : args.title with
    | none => rfl
    | some ttl =>
      rw [htl] at hTu
      dsimp only at hTu ⊢
      rw [hTu]
      rfl
  refine ⟨?_, ?_, ?_, ?_⟩
  · intro args hT hD hG hdd hne hlt
    simp only [tasksCreate, hT, hD, hG, hrej args.dueDate hdd hne hlt,
      Bool.not_true, Bool.false_eq_true, if_false, if_true]
  · intro args hT hD hG hdd hge
    simp only [tasksCreate, hT, hD, hG, hacc args.dueDate hdd hge,
      Bool.not_true, Bool.false_eq_true, if_false]
    exact ⟨_, rfl⟩
  · intro args harg hTu hD hG hdd hne hlt
    subst harg
    simp only [tasksUpdate, hfind, hbeq, htguard args hTu, hD, hG,
      hrej args.dueDate hdd hne hlt, Bool.not_true, Bool.false_eq_true,
      if_false, if_true]
  · intro args harg hTu hD hG hdd hge
    subst harg
    simp only [tasksUpdate, hfind, hbeq, htguard args hTu, hD, hG,
      hacc args.dueDate hdd hge, Bool.not_true, Bool.false_eq_true, if_false]
    exact ⟨_, rfl⟩

/-- Witness task and store for C9. -/
def c9task : Task :=
  { id := 0, userId := 5, title := "due soon", priority := .medium,
    status := .todo, order := 0, createdAt := 0, updatedAt := 0 }

/-- Witness store for C9. -/
def c9db : DB := { tasks := [c9task], nextId := 1 }

/-- C9 witness: at `now = 200000000` the bound is 113600000; a due date of
100000000 is rejected by create and update, one of 113600000 is accepted. -/
theorem due_date_lower_bound_witness :
    (getTaskById c9db 0 = some c9task ∧ c9task.userId = 5) ∧
    (tasksCreate c9db (some 5) true { title := "t", dueDate := some 100000000 }
        200000000 = .error (.invalidInput "Invalid due date")) ∧
    (∃ r, tasksCreate c9db (some 5) true
        { title := "t", dueDate := some 113600000 } 200000000 = .ok r) ∧
    (tasksUpdate c9db (some 5) true { id := 0, dueDate := some 100000000 }
        200000000 = .error (.invalidInput "Invalid due date")) ∧
    (∃ r, tasksUpdate c9db (some 5) true { id := 0, dueDate := some 113600000 }
        200000000 = .ok r) := by
  refine ⟨⟨by decide, by decide⟩, ?_, ?_, ?_, ?_⟩
  · exact (due_date_lower_bound c9db 5 0 c9task 200000000 100000000
      (by decide) (by decide)).1 _ (by decide) (by decide) (by decide) rfl
      (by decide) (by decide)
  · exact (due_date_lower_bound c9db 5 0 c9task 200000000 113600000
      (by decide) (by decide)).2.1 _ (by decide) (by decide) (by decide) rfl
      (by decide)
  · exact (due_date_lower_bound c9db 5 0 c9task 200000000 100000000
      (by decide) (by decide)).2.2.1 _ rfl (by decide) (by decide) (by decide)
      rfl (by decide) (by decide)
  · exact (due_date_lower_bound c9db 5 0 c9task 200000000 113600000
      (by decide) (by decide)).2.2.2 _ rfl (by decide) (by decide) (by decide)
      rfl (by decide)

-- ===========================================================================
-- C10: at most 50 categories per user
-- ===========================================================================

/-- C10: with 50 or more categories, the category `create` handler fails
with the limit error for every argument record — the check runs before name,
color or icon validation and before any write; and a successful create never
pushes the caller's category count past `MAX_CATEGORIES_PER_USER`. -/
theorem category_limit_enforced (db : DB) (u : Nat) (now : Int) :
    (∀ args : CategoryCreateArgs,
      (getCategoriesByUser db u).length ≥ MAX_CATEGORIES_PER_USER →
      categoriesCreate db (some u) true args now = .error .limitExceeded) ∧
    (∀ (args : CategoryCreateArgs) (db' : DB) (cid : Nat),
      (getCategoriesByUser db u).length ≤ MAX_CATEGORIES_PER_USER →
      categoriesCreate db (some u) true args now = .ok (db', cid) →
      (getCategoriesByUser db' u).length ≤ MAX_CATEGORIES_PER_USER) := by
  constructor
  · intro args hge
    simp only [categoriesCreate, Bool.not_true, Bool.false_eq_true, if_false]
    rw [if_pos hge]
  · intro args db' cid hle h
    by_cases hge : (getCategoriesByUser db u).length ≥ MAX_CATEGORIES_PER_USER
    · simp only [categoriesCreate, Bool.not_true, Bool.false_eq_true,
        if_false] at h
      rw [if_pos hge] at h
      cases h
    · simp only [categoriesCreate, Bool.not_true, Bool.false_eq_true,
        if_false] at h
      rw [if_neg hge] at h
      repeat' split at h
      all_goals
        first
          | (simp at h
             done)
          | (simp only [Except.ok.injEq, Prod.mk.injEq] at h
             obtain ⟨rfl, rfl⟩ := h
             have hlen : (getCategoriesByUser
                 (createCategory db
                   { userId := u, name := sanitizeInput args.name
                     color := args.color, icon := args.icon
                     order := getNextCategoryOrder db u } now).1 u).length
                 = (getCategoriesByUser db u).length + 1 := by
               unfold getCategoriesByUser createCategory
               simp [List.filter_append]
             rw [hlen]
             unfold MAX_CATEGORIES_PER_USER at hge ⊢
             omega)

/-- Witness store for C10: user 8 owns exactly 50 categories. -/
def c10db : DB :=
  { categories := (List.range 50).map (fun i =>
      { id := i, userId := 8, name := "c", color := "#123ABC", order := 0,
        createdAt := 0, updatedAt := 0 }),
    nextId := 50 }

/-- Witness store for the preservation half of C10: 49 categories. -/
def c10db49 : DB :=
  { categories := (List.range 49).map (fun i =>
      { id := i, userId := 8, name := "c", color := "#123ABC", order := 0,
        createdAt := 0, updatedAt := 0 }),
    nextId := 49 }

/-- C10 witness: with 50 categories the create call fails with the limit
error even though the submitted name and color are invalid (the check runs
first); with 49 categories a successful create still ends at most at 50. -/
theorem category_limit_enforced_witness :
    ((getCategoriesByUser c10db 8).length ≥ MAX_CATEGORIES_PER_USER) ∧
    (categoriesCreate c10db (some 8) true { name := "", color := "nope" } 10
      = .error .limitExceeded) ∧
    ((getCategoriesByUser c10db49 8).length ≤ MAX_CATEGORIES_PER_USER) ∧
    (∀ db' cid, categoriesCreate c10db49 (some 8) true
        { name := "new", color := "#00FF00" } 10 = .ok (db', cid) →
      (getCategoriesByUser db' 8).length ≤ MAX_CATEGORIES_PER_USER) ∧
    ((categoriesCreate c10db49 (some 8) true
        { name := "new", color := "#00FF00" } 10).toOption.isSome = true) := by
  refine ⟨by decide, ?_, by decide, ?_, by decide⟩
  · exact (category_limit_enforced c10db 8 10).1
      { name := "", color := "nope" } (by decide)
  · intro db' cid h
    exact (category_limit_enforced c10db49 8 10).2
      { name := "new", color := "#00FF00" } db' cid (by decide) h

end TaskFlow
